import Mathlib

/-!
Shallow embedding of the fsa-mock virtual file-system library:
the `FileSystem` entry/content store with disk-space accounting
(`src/file-system/FileSystem.ts`), the `Permission` state holder
(`src/permissions/Permission.ts`), the `PermissionsManager` hierarchy
(`src/permissions/PermissionsManager.ts`), the `SyncAccessHandle`
(`src/file-system-access-api/SyncAccessHandle.ts`) and the
`WritableFileStreamSink` (`src/file-system-access-api/WritableFileStreamSink.ts`),
together with theorems settling the specification claims.

Modelling conventions:
- paths are lists of segments (`List String`); the root path `""` is `[]`;
  `dirname` becomes `List.dropLast`;
- byte buffers (`ArrayBuffer`) are `List Nat`;
- descriptor object identity is modelled by a numeric file id minted at
  creation (`nextId`); the mutable descriptor fields (`size`, `lastModified`)
  live in a per-id `meta` table, and the content store (`disk`) is keyed by id;
- `Infinity` disk size is `Option Nat` with `none` = unlimited; free space is
  an `Option Int` so that the JS comparisons against possibly-negative free
  space are represented exactly;
- JS exceptions are `JsErr` values; a mutating operation returns the
  post-call state *and* an `Except JsErr` outcome, because a thrown JS
  exception does not roll back mutations already performed.
-/

namespace FsaMock

/-- Permission state: `"granted" | "prompt" | "denied"`. -/
inductive PermState where
  | granted
  | prompt
  | denied
deriving DecidableEq, Repr

/-- Permission mode: `"read" | "readwrite"`. -/
inductive Mode where
  | read
  | readwrite
deriving DecidableEq, Repr

/-- The two tri-state values held by one `Permission` object
(`src/permissions/Permission.ts`), without its subscriber lists. -/
structure PermVal where
  read : PermState
  readwrite : PermState
deriving DecidableEq, Repr

/-- `Permission.setRead`: assign `read`; then, when the new state is not
`"granted"`, cascade into `setReadwrite` with the same state (which, not
being `"granted"`, does not cascade back). Subscriber notification has no
effect on the pair of stored values. -/
def setReadVal (p : PermVal) (s : PermState) : PermVal :=
  let p1 : PermVal := { p with read := s }
  if s ≠ PermState.granted then { p1 with readwrite := s } else p1

/-- `Permission.setReadwrite`: when the new state is `"granted"`, first run
`setRead "granted"` (no cascade back since the state is `"granted"`); then
assign `readwrite`. -/
def setReadwriteVal (p : PermVal) (s : PermState) : PermVal :=
  let p1 : PermVal := if s = PermState.granted then { p with read := s } else p
  { p1 with readwrite := s }

/-- `Permission.set(mode, state)` dispatch. -/
def setModeVal (p : PermVal) (m : Mode) (s : PermState) : PermVal :=
  match m with
  | Mode.read => setReadVal p s
  | Mode.readwrite => setReadwriteVal p s

/-- One `setRead`/`setReadwrite` call in a call sequence. -/
inductive PermOp where
  | setRead (s : PermState)
  | setReadwrite (s : PermState)
deriving DecidableEq, Repr

/-- Apply one call. -/
def applyPermOp (p : PermVal) (o : PermOp) : PermVal :=
  match o with
  | PermOp.setRead s => setReadVal p s
  | PermOp.setReadwrite s => setReadwriteVal p s

/-- Apply a call sequence left to right. -/
def applyPermOps (p : PermVal) (ops : List PermOp) : PermVal :=
  ops.foldl applyPermOp p

/-- Read one mode of a `PermVal`. -/
def PermVal.get (p : PermVal) (m : Mode) : PermState :=
  match m with
  | Mode.read => p.read
  | Mode.readwrite => p.readwrite

/-! ## JS exceptions -/

/-- The exceptions thrown by the core: `TypeError`, `RangeError` and
`DOMException(message, name)`. -/
inductive JsErr where
  | typeError (msg : String)
  | rangeError (msg : String)
  | domError (msg : String) (name : String)
deriving DecidableEq, Repr

/-! ## Association-list helpers (JS `Map` objects) -/

/-- `Map.get`. -/
def alGet {α β : Type} [DecidableEq α] (k : α) : List (α × β) → Option β
  | [] => none
  | (k', v) :: rest => if k = k' then some v else alGet k rest

/-- `Map.set`: replaces in place when present, appends when absent
(JS `Map` keeps insertion order). -/
def alSet {α β : Type} [DecidableEq α] (k : α) (v : β) : List (α × β) → List (α × β)
  | [] => [(k, v)]
  | (k', v') :: rest =>
      if k = k' then (k, v) :: rest else (k', v') :: alSet k v rest

/-- `Map.delete`. -/
def alErase {α β : Type} [DecidableEq α] (k : α) : List (α × β) → List (α × β)
  | [] => []
  | (k', v') :: rest => if k = k' then rest else (k', v') :: alErase k rest

/-! ## FileSystem (`src/file-system/FileSystem.ts`) -/

/-- A path as its list of segments; the root path `""` is `[]`.
`dirname` is `List.dropLast` (with `dirname` of the root being `null`,
handled at each use site). -/
abbrev Path := List String

/-- A registry value: a directory descriptor, or a file descriptor identified
by the numeric id standing for the descriptor object's identity. -/
inductive Entry where
  | dir
  | file (fid : Nat)
deriving DecidableEq, Repr

/-- The mutable fields of a `FileDescriptor` object (`size`, `lastModified`),
stored per descriptor identity. -/
structure FileMeta where
  size : Nat
  lastModified : Option Nat
deriving DecidableEq, Repr

/-- A `FileDescriptor` as held by a caller: its identity plus its `fullPath`. -/
structure Descriptor where
  fid : Nat
  fullPath : Path
deriving DecidableEq, Repr

/-- The `FileSystem` state: the registry, the per-descriptor mutable fields,
the content store (`disk`), the disk-size ceiling (`none` = `Infinity`), the
next fresh descriptor identity, and a logical clock standing for `Date.now()`. -/
structure FS where
  registry : List (Path × Entry)
  meta : List (Nat × FileMeta)
  disk : List (Nat × List Nat)
  diskSize : Option Nat
  nextId : Nat
  clock : Nat
deriving DecidableEq, Repr

/-- `new FileSystem(diskSize)`: fresh state holding only the root directory. -/
def FS.init (diskSize : Option Nat) : FS :=
  { registry := [([], Entry.dir)]
    meta := []
    disk := []
    diskSize := diskSize
    nextId := 0
    clock := 0 }

/-- `FileSystem.exists`. -/
def FS.pathExists (fs : FS) (p : Path) : Bool :=
  (alGet p fs.registry).isSome

/-- `FileSystem.isDirectory`. -/
def FS.isDirectory (fs : FS) (p : Path) : Bool :=
  match alGet p fs.registry with
  | some Entry.dir => true
  | _ => false

/-- `FileSystem.isFile`. -/
def FS.isFile (fs : FS) (p : Path) : Bool :=
  match alGet p fs.registry with
  | some (Entry.file _) => true
  | _ => false

/-- `FileSystem.getUsedDiskSpace`: sum of all content-store buffer lengths. -/
def FS.usedDiskSpace (fs : FS) : Nat :=
  fs.disk.foldr (fun kv acc => kv.2.length + acc) 0

/-- `FileSystem.getFreeDiskSpace`: `diskSize - used` when the ceiling is
finite (as an `Int`, since the JS subtraction can go negative), `none` for
`Infinity`. -/
def FS.freeDiskSpace (fs : FS) : Option Int :=
  fs.diskSize.map (fun total => (total : Int) - (fs.usedDiskSpace : Int))

/-- The comparison `n > freeSpace + extra` used by the quota checks;
always false against an unlimited disk. -/
def FS.quotaShort (fs : FS) (n : Nat) (extra : Int) : Bool :=
  match fs.freeDiskSpace with
  | none => false
  | some free => (n : Int) > free + extra

/-- Body of `FileSystem.makeDirectory(path, {recursive})`, with explicit
structural fuel for the recursion on the parent path (the recursion depth is
the path length, so the zero-fuel branch is unreachable for the fuel
`FS.makeDirectory` supplies). Returns the state after the call (mutations
survive a throw) together with the outcome. -/
def FS.makeDirectoryAux : Nat → FS → Path → Bool → FS × Except JsErr Unit
  | 0, fs, _, _ => (fs, Except.ok ())
  | fuel + 1, fs, p, recursive =>
    if fs.pathExists p then
      (fs, Except.error (JsErr.typeError "already exist."))
    else
      -- `dirname !== null && dirname.length`: nonempty path, nonempty parent
      if p ≠ [] ∧ p.dropLast ≠ [] then
        if ¬ fs.pathExists p.dropLast then
          if ¬ recursive then
            (fs, Except.error (JsErr.typeError
              "Set recursive option to true for recursive directory creation."))
          else
            match FS.makeDirectoryAux fuel fs p.dropLast recursive with
            | (fs1, Except.error e) => (fs1, Except.error e)
            | (fs1, Except.ok _) =>
                ({ fs1 with registry := alSet p Entry.dir fs1.registry },
                  Except.ok ())
        else if ¬ fs.isDirectory p.dropLast then
          (fs, Except.error (JsErr.typeError "is not directory path."))
        else
          ({ fs with registry := alSet p Entry.dir fs.registry }, Except.ok ())
      else
        ({ fs with registry := alSet p Entry.dir fs.registry }, Except.ok ())

/-- `FileSystem.makeDirectory(path, {recursive})`. -/
def FS.makeDirectory (fs : FS) (p : Path) (recursive : Bool) :
    FS × Except JsErr Unit :=
  FS.makeDirectoryAux (p.length + 1) fs p recursive

/-- `FileSystem.createFile(path, {size})`: duplicate check, recursive parent
directory creation, then the quota check and the allocation, then the
registry insertion. Note the parent directories are created *before* the
quota check runs. -/
def FS.createFile (fs : FS) (p : Path) (size : Nat) :
    FS × Except JsErr Descriptor :=
  if fs.pathExists p then
    (fs, Except.error (JsErr.typeError "already exists."))
  else
    match (if p ≠ [] ∧ p.dropLast ≠ [] ∧ ¬ fs.pathExists p.dropLast then
        FS.makeDirectory fs p.dropLast true
      else (fs, Except.ok ())) with
    | (fs1, Except.error e) => (fs1, Except.error e)
    | (fs1, Except.ok _) =>
        if fs1.quotaShort size 0 then
          (fs1, Except.error (JsErr.rangeError "Not enough free space."))
        else
          ({ fs1 with
              disk := alSet fs1.nextId (List.replicate size 0) fs1.disk
              meta := alSet fs1.nextId
                { size := size, lastModified := some fs1.clock } fs1.meta
              registry := alSet p (Entry.file fs1.nextId) fs1.registry
              nextId := fs1.nextId + 1
              clock := fs1.clock + 1 },
            Except.ok { fid := fs1.nextId, fullPath := p })

/-- `FileSystem.readFile(descriptor)`. -/
def FS.readFile (fs : FS) (d : Descriptor) : Except JsErr (List Nat) :=
  match alGet d.fid fs.disk with
  | some buf => Except.ok buf
  | none => Except.error
      (JsErr.domError "No file for given descriptor was found." "NotFoundError")

/-- `FileSystem.writeFile(descriptor, data)`: existence check, quota check
against `freeSpace + oldFileSize`, then content replacement and the in-place
descriptor update of `size` and `lastModified`. -/
def FS.writeFile (fs : FS) (d : Descriptor) (data : List Nat) :
    FS × Except JsErr Unit :=
  match alGet d.fid fs.disk with
  | none =>
      (fs, Except.error (JsErr.domError
        "No allocated memory for given descriptor." "NotFoundError"))
  | some oldBuf =>
      if fs.quotaShort data.length (oldBuf.length : Int) then
        (fs, Except.error (JsErr.rangeError "Not enough free space to write file."))
      else
        ({ fs with
            disk := alSet d.fid data fs.disk
            meta := alSet d.fid
              { size := data.length, lastModified := some fs.clock } fs.meta
            clock := fs.clock + 1 },
          Except.ok ())

/-- `FileSystem.getFileSize(path)`: the content-store buffer length of the
file registered at `path`, when there is one. -/
def FS.getFileSize (fs : FS) (p : Path) : Option Nat :=
  match alGet p fs.registry with
  | some (Entry.file fid) => (alGet fid fs.disk).map List.length
  | _ => none

/-- The `size` field of the descriptor with identity `fid`
(`descriptor.size` in the source; `0` when the identity is unknown). -/
def FS.metaSize (fs : FS) (fid : Nat) : Nat :=
  match alGet fid fs.meta with
  | some m => m.size
  | none => 0

/-- Direct child paths of `p` in the registry
(`getChildPaths`, restricted to canonical segment paths). -/
def FS.childPaths (fs : FS) (p : Path) : List Path :=
  (fs.registry.map Prod.fst).filter (fun q => q ≠ [] ∧ q.dropLast = p)

/-- `FileSystem.remove(path, {recursive})`, with explicit recursion fuel
(the recursion descends to strictly deeper paths; `FS.remove` supplies
fuel that covers every registry). Fuel exhaustion returns the state
unchanged. -/
def FS.removeAux : Nat → FS → Path → Bool → FS × Except JsErr Unit
  | 0, fs, _, _ => (fs, Except.ok ())
  | _ + 1, fs, [], _ =>
      (fs, Except.error (JsErr.typeError "Root entry is not removable."))
  | fuel + 1, fs, p, recursive =>
      if fs.isFile p then
        match alGet p fs.registry with
        | some (Entry.file fid) =>
            ({ fs with
                disk := alErase fid fs.disk
                registry := alErase p fs.registry },
              Except.ok ())
        | _ => (fs, Except.ok ())  -- unreachable given `isFile`
      else
        let children := fs.childPaths p
        if children.isEmpty then
          ({ fs with registry := alErase p fs.registry }, Except.ok ())
        else if ¬ recursive then
          (fs, Except.error (JsErr.domError "Directory has children."
            "InvalidModificationError"))
        else
          let fs1 := children.foldl
            (fun acc c => (FS.removeAux fuel acc c recursive).1) fs
          ({ fs1 with registry := alErase p fs1.registry }, Except.ok ())

/-- `FileSystem.remove` with sufficient fuel. -/
def FS.remove (fs : FS) (p : Path) (recursive : Bool) : FS × Except JsErr Unit :=
  FS.removeAux (fs.registry.length + 1) fs p recursive

/-- `FileSystem.purge()`: clears the content store and the registry and
re-creates the root. (The stale `meta` records belong to descriptor objects
no longer reachable through the registry.) -/
def FS.purge (fs : FS) : FS :=
  { fs with disk := [], registry := [([], Entry.dir)] }

/-- `FileSystem.setTotalDiskSpace(size)`. -/
def FS.setTotalDiskSpace (fs : FS) (size : Nat) : FS × Except JsErr Unit :=
  if size < fs.usedDiskSpace then
    (fs, Except.error (JsErr.rangeError "Cannot shrink below used space."))
  else
    ({ fs with diskSize := some size }, Except.ok ())

/-! ## SyncAccessHandle (`src/file-system-access-api/SyncAccessHandle.ts`) -/

/-- The handle state: the private temp buffer, the cursor, the open/closed
flag, and the captured file descriptor. -/
structure Handle where
  descriptor : Descriptor
  tempFile : List Nat
  cursor : Nat
  isClosed : Bool
deriving DecidableEq, Repr

/-- `copyArrayBuffer(source, destination)` with default options: copies
`min(source.length, destination.length)` bytes from the start of `source`
over the start of `destination`, leaving the rest of `destination` intact. -/
def copyInto (source destination : List Nat) : List Nat :=
  source.take destination.length ++ destination.drop source.length

/-- `new SyncAccessHandle(descriptor, fileSystem, keepContent)`: a zero-filled
temp buffer of the descriptor's `size` when `keepContent` (then the persisted
bytes are copied in; `readFile` throwing `NotFoundError` for a stale
descriptor propagates), else an empty buffer. -/
def Handle.make (fs : FS) (d : Descriptor) (keepContent : Bool) :
    Except JsErr Handle :=
  if keepContent then
    match FS.readFile fs d with
    | Except.error e => Except.error e
    | Except.ok buf =>
        Except.ok
          { descriptor := d
            tempFile := copyInto buf (List.replicate (fs.metaSize d.fid) 0)
            cursor := 0
            isClosed := false }
  else
    Except.ok { descriptor := d, tempFile := [], cursor := 0, isClosed := false }

/-- The `InvalidStateError` thrown on a closed handle. -/
def invalidStateErr : JsErr :=
  JsErr.domError "FileSystemSyncAccessHandle is closed." "InvalidStateError"

/-- The `QuotaExceededError` thrown by `ensureHasFreeMemory`. -/
def quotaErr : JsErr :=
  JsErr.domError "Not enough free space" "QuotaExceededError"

/-- `SyncAccessHandle.ensureHasFreeMemory(byteLength)` fails exactly when
`byteLength > fileSystem.getFreeDiskSpace() + fileDescriptor.size`, reading
the descriptor's *current* `size` field. -/
def Handle.quotaExceeded (fs : FS) (h : Handle) (byteLength : Nat) : Bool :=
  fs.quotaShort byteLength (fs.metaSize h.descriptor.fid : Int)

/-- `SyncAccessHandle.write(buffer, {at})`. The `at` argument is an `Int`
to represent the negative-offset check. On a quota failure the zero-fill
growth performed for a write position past the end of the buffer has
already replaced the temp buffer. Returns the handle after the call and
the outcome (bytes written). -/
def Handle.write (fs : FS) (h : Handle) (buf : List Nat) (at? : Option Int) :
    Handle × Except JsErr Nat :=
  if h.isClosed then (h, Except.error invalidStateErr)
  else
    let writePosition : Int := at?.getD (h.cursor : Int)
    if writePosition < 0 then
      (h, Except.error (JsErr.typeError "Negative writing offset is not supported"))
    else
      let wp := writePosition.toNat
      let oldSize := h.tempFile.length
      let temp1 :=
        if wp > oldSize then h.tempFile ++ List.replicate (wp - oldSize) 0
        else h.tempFile
      let head := temp1.take wp
      let tail :=
        if wp + buf.length < oldSize then temp1.drop (wp + buf.length) else []
      let newSize := head.length + buf.length + tail.length
      if Handle.quotaExceeded fs h newSize then
        ({ h with tempFile := temp1 }, Except.error quotaErr)
      else
        ({ h with tempFile := head ++ buf ++ tail, cursor := wp + buf.length },
          Except.ok buf.length)

/-- `SyncAccessHandle.truncate(bytesLength)`: negative check, quota check,
then zero-fill growth or tail drop, then the cursor clamp. -/
def Handle.truncate (fs : FS) (h : Handle) (bytesLength : Int) :
    Handle × Except JsErr Unit :=
  if h.isClosed then (h, Except.error invalidStateErr)
  else if bytesLength < 0 then
    (h, Except.error (JsErr.typeError "Negative file size is not supported"))
  else
    let n := bytesLength.toNat
    if Handle.quotaExceeded fs h n then (h, Except.error quotaErr)
    else
      let oldSize := h.tempFile.length
      let temp1 :=
        if n > oldSize then h.tempFile ++ List.replicate (n - oldSize) 0
        else h.tempFile.take n
      ({ h with tempFile := temp1, cursor := min h.cursor n }, Except.ok ())

/-- `SyncAccessHandle.flush()`: a plain `writeFile` of the temp buffer. -/
def Handle.flush (fs : FS) (h : Handle) : FS × Except JsErr Unit :=
  if h.isClosed then (fs, Except.error invalidStateErr)
  else FS.writeFile fs h.descriptor h.tempFile

/-- `SyncAccessHandle.getSize()`. -/
def Handle.getSize (h : Handle) : Except JsErr Nat :=
  if h.isClosed then Except.error invalidStateErr
  else Except.ok h.tempFile.length

/-- `SyncAccessHandle.close()`. -/
def Handle.close (h : Handle) : Handle :=
  { h with isClosed := true }

/-! ## Operation sequences over the file system -/

/-- The public operations of the size-consistency claim: `createFile`,
`writeFile` (which also covers `SyncAccessHandle.flush`, a plain
`writeFile` of the temp buffer under the handle's descriptor), `remove`
and `purge`. `writeFile` is invoked with the descriptor identity the
caller holds. -/
inductive FsOp where
  | createFile (p : Path) (size : Nat)
  | writeFile (fid : Nat) (p : Path) (data : List Nat)
  | remove (p : Path) (recursive : Bool)
  | purge
deriving Repr

/-- Run one public operation (a thrown exception leaves the state the
operation reached). -/
def runFsOp (fs : FS) (op : FsOp) : FS :=
  match op with
  | FsOp.createFile p size => (FS.createFile fs p size).1
  | FsOp.writeFile fid p data => (FS.writeFile fs { fid := fid, fullPath := p } data).1
  | FsOp.remove p recursive => (FS.remove fs p recursive).1
  | FsOp.purge => fs.purge

/-- Run a sequence of public operations. -/
def runFsOps (fs : FS) (ops : List FsOp) : FS :=
  ops.foldl runFsOp fs

/-- A system state for sequences that mix `FileSystem` calls with
`SyncAccessHandle` calls: the file system plus the open handles. -/
structure Sys where
  fs : FS
  handles : List Handle
deriving Repr

/-- The operations of the quota-invariant claim: `FileSystem.createFile`,
`FileSystem.writeFile` and `SyncAccessHandle.truncate` (plus opening a
handle, needed for a truncate to exist, and `SyncAccessHandle.write` and
`flush` so that handle buffers can reach arbitrary states). -/
inductive SysOp where
  | createFile (p : Path) (size : Nat)
  | writeFile (fid : Nat) (p : Path) (data : List Nat)
  | openHandle (p : Path) (keepContent : Bool)
  | handleWrite (i : Nat) (buf : List Nat) (at? : Option Int)
  | handleTruncate (i : Nat) (n : Int)
  | handleFlush (i : Nat)
deriving Repr

/-- Run one system operation. -/
def runSysOp (s : Sys) (op : SysOp) : Sys :=
  match op with
  | SysOp.createFile p size => { s with fs := (FS.createFile s.fs p size).1 }
  | SysOp.writeFile fid p data =>
      { s with fs := (FS.writeFile s.fs { fid := fid, fullPath := p } data).1 }
  | SysOp.openHandle p keepContent =>
      match alGet p s.fs.registry with
      | some (Entry.file fid) =>
          match Handle.make s.fs { fid := fid, fullPath := p } keepContent with
          | Except.ok h => { s with handles := s.handles ++ [h] }
          | Except.error _ => s
      | _ => s
  | SysOp.handleWrite i buf at? =>
      match s.handles[i]? with
      | some h => { s with handles := s.handles.set i (Handle.write s.fs h buf at?).1 }
      | none => s
  | SysOp.handleTruncate i n =>
      match s.handles[i]? with
      | some h => { s with handles := s.handles.set i (Handle.truncate s.fs h n).1 }
      | none => s
  | SysOp.handleFlush i =>
      match s.handles[i]? with
      | some h => { s with fs := (Handle.flush s.fs h).1 }
      | none => s

/-- Run a sequence of system operations. -/
def runSysOps (s : Sys) (ops : List SysOp) : Sys :=
  ops.foldl runSysOp s

/-- Fresh system over a fresh file system. -/
def Sys.init (diskSize : Option Nat) : Sys :=
  { fs := FS.init diskSize, handles := [] }

/-- The quota invariant: used disk space never exceeds the ceiling. -/
def FS.quotaOk (fs : FS) : Prop :=
  match fs.diskSize with
  | none => True
  | some total => fs.usedDiskSpace ≤ total

instance (fs : FS) : Decidable fs.quotaOk := by
  unfold FS.quotaOk
  exact match fs.diskSize with
  | none => inferInstanceAs (Decidable True)
  | some _ => inferInstanceAs (Decidable (_ ≤ _))

/-! ## Association-list lemmas -/

theorem alGet_alSet_self {α β : Type} [DecidableEq α] (k : α) (v : β)
    (l : List (α × β)) : alGet k (alSet k v l) = some v := by
  induction l with
  | nil => simp [alGet, alSet]
  | cons kv rest ih =>
      obtain ⟨k', v'⟩ := kv
      by_cases hk : k = k' <;> simp [alGet, alSet, hk, ih]

theorem alGet_alSet_ne {α β : Type} [DecidableEq α] {k k' : α} (v : β)
    (l : List (α × β)) (hne : k ≠ k') :
    alGet k (alSet k' v l) = alGet k l := by
  induction l with
  | nil => simp [alGet, alSet, hne]
  | cons kv rest ih =>
      obtain ⟨k'', v''⟩ := kv
      by_cases h1 : k' = k''
      · subst h1
        simp [alGet, alSet, hne]
      · by_cases h2 : k = k'' <;> simp [alGet, alSet, h1, h2, ih]

theorem alGet_alErase_ne {α β : Type} [DecidableEq α] {k k' : α}
    (l : List (α × β)) (hne : k ≠ k') :
    alGet k (alErase k' l) = alGet k l := by
  induction l with
  | nil => simp [alErase]
  | cons kv rest ih =>
      obtain ⟨k'', v''⟩ := kv
      by_cases h1 : k' = k''
      · subst h1
        simp [alGet, alErase, hne]
      · by_cases h2 : k = k'' <;> simp [alGet, alErase, h1, h2, ih]

/-- Keys of an association list. -/
def alKeys {α β : Type} (l : List (α × β)) : List α := l.map Prod.fst

theorem alGet_eq_none_of_not_mem {α β : Type} [DecidableEq α] {k : α}
    {l : List (α × β)} (h : k ∉ alKeys l) : alGet k l = none := by
  induction l with
  | nil => simp [alGet]
  | cons kv rest ih =>
      obtain ⟨k', v'⟩ := kv
      simp only [alKeys, List.map_cons, List.mem_cons] at h
      push_neg at h
      simp [alGet, h.1, ih (by simpa [alKeys] using h.2)]

theorem alGet_alErase_self {α β : Type} [DecidableEq α] (k : α)
    {l : List (α × β)} (hnd : (alKeys l).Nodup) :
    alGet k (alErase k l) = none := by
  induction l with
  | nil => simp [alErase, alGet]
  | cons kv rest ih =>
      obtain ⟨k', v'⟩ := kv
      simp only [alKeys, List.map_cons, List.nodup_cons] at hnd
      by_cases h1 : k = k'
      · subst h1
        simp only [alErase, if_pos rfl]
        exact alGet_eq_none_of_not_mem hnd.1
      · simp [alErase, h1, alGet, ih hnd.2]

theorem mem_alKeys_alSet {α β : Type} [DecidableEq α] {x k : α} {v : β} :
    ∀ {l : List (α × β)}, x ∈ alKeys (alSet k v l) → x ∈ alKeys l ∨ x = k := by
  intro l
  induction l with
  | nil =>
      intro h
      simp only [alSet, alKeys, List.map_cons, List.map_nil,
        List.mem_singleton] at h
      exact Or.inr h
  | cons kv rest ih =>
      obtain ⟨k', v'⟩ := kv
      intro h
      by_cases h1 : k = k'
      · subst h1
        rw [show alSet k v ((k, v') :: rest) = (k, v) :: rest from by
          simp [alSet]] at h
        simp only [alKeys, List.map_cons, List.mem_cons] at h ⊢
        rcases h with h | h
        · exact Or.inr h
        · exact Or.inl (Or.inr h)
      · rw [show alSet k v ((k', v') :: rest) = (k', v') :: alSet k v rest from by
          simp [alSet, h1]] at h
        simp only [alKeys, List.map_cons, List.mem_cons] at h ⊢
        rcases h with h | h
        · exact Or.inl (Or.inl h)
        · rcases ih h with h2 | h2
          · exact Or.inl (Or.inr h2)
          · exact Or.inr h2

theorem alKeys_alSet_nodup {α β : Type} [DecidableEq α] (k : α) (v : β)
    {l : List (α × β)} (hnd : (alKeys l).Nodup) :
    (alKeys (alSet k v l)).Nodup := by
  induction l with
  | nil => simp [alSet, alKeys]
  | cons kv rest ih =>
      obtain ⟨k', v'⟩ := kv
      simp only [alKeys, List.map_cons, List.nodup_cons] at hnd
      by_cases h1 : k = k'
      · subst h1
        simpa [alSet, alKeys] using hnd
      · have hmem : k' ∉ alKeys (alSet k v rest) := by
          intro hmem
          rcases mem_alKeys_alSet hmem with h4 | h4
          · exact hnd.1 h4
          · exact h1 h4.symm
        simp only [alSet, if_neg (fun hh => h1 hh), alKeys, List.map_cons,
          List.nodup_cons]
        exact ⟨hmem, ih hnd.2⟩

theorem alKeys_alErase_sublist {α β : Type} [DecidableEq α] (k : α)
    (l : List (α × β)) : (alKeys (alErase k l)).Sublist (alKeys l) := by
  induction l with
  | nil => simp [alErase]
  | cons kv rest ih =>
      obtain ⟨k', v'⟩ := kv
      by_cases h1 : k = k'
      · simp only [alErase, if_pos h1, alKeys, List.map_cons]
        exact (List.sublist_cons_self _ _)
      · simp only [alErase, if_neg h1, alKeys, List.map_cons]
        exact ih.cons₂ _

theorem alKeys_alErase_nodup {α β : Type} [DecidableEq α] (k : α)
    {l : List (α × β)} (hnd : (alKeys l).Nodup) :
    (alKeys (alErase k l)).Nodup :=
  (alKeys_alErase_sublist k l).nodup hnd

/-! ## Disk-usage accounting lemmas -/

/-- The summed byte length of a content store. -/
def usedOf (l : List (Nat × List Nat)) : Nat :=
  l.foldr (fun kv acc => kv.2.length + acc) 0

theorem FS.usedDiskSpace_eq (fs : FS) : fs.usedDiskSpace = usedOf fs.disk := rfl

theorem usedOf_alSet_absent {k : Nat} {l : List (Nat × List Nat)}
    (h : alGet k l = none) (v : List Nat) :
    usedOf (alSet k v l) = usedOf l + v.length := by
  induction l with
  | nil => simp [alSet, usedOf]
  | cons kv rest ih =>
      obtain ⟨k', v'⟩ := kv
      by_cases h1 : k = k'
      · simp [alGet, h1] at h
      · simp only [alGet, if_neg h1] at h
        simp only [alSet, if_neg h1, usedOf, List.foldr_cons]
        have := ih h
        simp only [usedOf] at this
        omega

theorem usedOf_alSet_present {k : Nat} {l : List (Nat × List Nat)} {ov : List Nat}
    (h : alGet k l = some ov) (v : List Nat) :
    usedOf (alSet k v l) + ov.length = usedOf l + v.length := by
  induction l with
  | nil => simp [alGet] at h
  | cons kv rest ih =>
      obtain ⟨k', v'⟩ := kv
      by_cases h1 : k = k'
      · simp only [alGet, if_pos h1, Option.some.injEq] at h
        subst h
        simp only [alSet, if_pos h1, usedOf, List.foldr_cons]
        omega
      · simp only [alGet, if_neg h1] at h
        simp only [alSet, if_neg h1, usedOf, List.foldr_cons]
        have := ih h
        simp only [usedOf] at this
        omega

theorem usedOf_alErase_present {k : Nat} {l : List (Nat × List Nat)} {ov : List Nat}
    (h : alGet k l = some ov) :
    usedOf (alErase k l) + ov.length = usedOf l := by
  induction l with
  | nil => simp [alGet] at h
  | cons kv rest ih =>
      obtain ⟨k', v'⟩ := kv
      by_cases h1 : k = k'
      · simp only [alGet, if_pos h1, Option.some.injEq] at h
        subst h
        simp only [alErase, if_pos h1, usedOf, List.foldr_cons]
        omega
      · simp only [alGet, if_neg h1] at h
        simp only [alErase, if_neg h1, usedOf, List.foldr_cons]
        have := ih h
        simp only [usedOf] at this
        omega

/-! ## `makeDirectory` only adds directory entries -/

/-- What a (recursive) `makeDirectory` call can do to the state: the content
store, the descriptor table, the id counter and the ceiling are untouched,
the file entries of the registry are exactly preserved, and registry-key
uniqueness is preserved. -/
def mkdirPreserved (fs fs' : FS) : Prop :=
  fs'.disk = fs.disk ∧ fs'.meta = fs.meta ∧ fs'.nextId = fs.nextId ∧
  fs'.diskSize = fs.diskSize ∧
  (∀ q fid, alGet q fs'.registry = some (Entry.file fid) ↔
    alGet q fs.registry = some (Entry.file fid)) ∧
  ((alKeys fs.registry).Nodup → (alKeys fs'.registry).Nodup)

theorem mkdirPreserved_refl (fs : FS) : mkdirPreserved fs fs :=
  ⟨rfl, rfl, rfl, rfl, fun _ _ => Iff.rfl, id⟩

theorem mkdirPreserved_trans {fs1 fs2 fs3 : FS} (h12 : mkdirPreserved fs1 fs2)
    (h23 : mkdirPreserved fs2 fs3) : mkdirPreserved fs1 fs3 := by
  obtain ⟨d12, m12, n12, s12, r12, u12⟩ := h12
  obtain ⟨d23, m23, n23, s23, r23, u23⟩ := h23
  exact ⟨d23.trans d12, m23.trans m12, n23.trans n12, s23.trans s12,
    fun q fid => (r23 q fid).trans (r12 q fid), fun h => u23 (u12 h)⟩

theorem registerDir_preserved (fs : FS) (p : Path)
    (habs : fs.pathExists p = false) :
    mkdirPreserved fs { fs with registry := alSet p Entry.dir fs.registry } := by
  refine ⟨rfl, rfl, rfl, rfl, ?_, ?_⟩
  · intro q fid
    by_cases hq : q = p
    · subst hq
      have hnone : alGet q fs.registry = none := by
        unfold FS.pathExists at habs
        cases hg : alGet q fs.registry with
        | none => rfl
        | some e => rw [hg] at habs; simp at habs
      rw [alGet_alSet_self, hnone]
      simp
    · rw [alGet_alSet_ne _ _ hq]
  · exact fun h => alKeys_alSet_nodup p Entry.dir h

theorem FS.makeDirectoryAux_preserved :
    ∀ (fuel : Nat) (fs : FS) (p : Path) (r : Bool),
      mkdirPreserved fs (FS.makeDirectoryAux fuel fs p r).1 ∧
      (∀ q : Path, q.length > p.length →
        alGet q (FS.makeDirectoryAux fuel fs p r).1.registry = alGet q fs.registry) := by
  intro fuel
  induction fuel with
  | zero =>
      intro fs p r
      exact ⟨mkdirPreserved_refl fs, fun _ _ => rfl⟩
  | succ n ih =>
      intro fs p r
      rw [FS.makeDirectoryAux]
      by_cases hex : fs.pathExists p
      · rw [if_pos hex]
        exact ⟨mkdirPreserved_refl fs, fun _ _ => rfl⟩
      · rw [if_neg hex]
        have hexf : fs.pathExists p = false := (Bool.not_eq_true _).mp hex
        by_cases hcond : p ≠ [] ∧ p.dropLast ≠ []
        · rw [if_pos hcond]
          by_cases hpex : fs.pathExists p.dropLast
          · rw [if_neg (fun hcontra => hcontra hpex)]
            by_cases hdir : fs.isDirectory p.dropLast
            · rw [if_neg (fun hcontra => hcontra hdir)]
              refine ⟨registerDir_preserved fs p hexf, ?_⟩
              intro q hq
              have hne : q ≠ p := by
                intro hn; rw [hn] at hq; omega
              exact alGet_alSet_ne _ _ hne
            · rw [if_pos hdir]
              exact ⟨mkdirPreserved_refl fs, fun _ _ => rfl⟩
          · rw [if_pos hpex]
            by_cases hrec : r
            · rw [if_neg (fun hcontra => hcontra hrec)]
              have hplen : 0 < p.length := List.length_pos.mpr hcond.1
              have hdrop : p.dropLast.length = p.length - 1 :=
                List.length_dropLast p
              have hsub := ih fs p.dropLast r
              cases hcall : FS.makeDirectoryAux n fs p.dropLast r with
              | mk fs1 res =>
                  rw [hcall] at hsub
                  cases res with
                  | error e => exact ⟨hsub.1, fun q hq => hsub.2 q (by omega)⟩
                  | ok u =>
                      simp only at hsub ⊢
                      have habs1 : fs1.pathExists p = false := by
                        have hsame := hsub.2 p (by omega)
                        unfold FS.pathExists
                        rw [hsame]
                        unfold FS.pathExists at hexf
                        exact hexf
                      refine ⟨mkdirPreserved_trans hsub.1
                        (registerDir_preserved fs1 p habs1), ?_⟩
                      intro q hq
                      have hne : q ≠ p := by
                        intro hn; rw [hn] at hq; omega
                      show alGet q (alSet p Entry.dir fs1.registry) = _
                      rw [alGet_alSet_ne _ _ hne]
                      exact hsub.2 q (by omega)
            · rw [if_pos (by simpa using hrec)]
              exact ⟨mkdirPreserved_refl fs, fun _ _ => rfl⟩
        · rw [if_neg hcond]
          refine ⟨registerDir_preserved fs p hexf, ?_⟩
          intro q hq
          have hne : q ≠ p := by
            intro hn; rw [hn] at hq; omega
          exact alGet_alSet_ne _ _ hne

/-- A `makeDirectory` call, whatever its outcome, leaves the content store,
descriptor table, id counter and ceiling untouched and preserves the file
entries and registry-key uniqueness. -/
theorem FS.makeDirectory_preserved (fs : FS) (p : Path) (r : Bool) :
    mkdirPreserved fs (FS.makeDirectory fs p r).1 :=
  (FS.makeDirectoryAux_preserved (p.length + 1) fs p r).1

/-! ## Quota-invariant lemmas -/

theorem FS.used_congr {fs fs' : FS} (hd : fs'.disk = fs.disk) :
    fs'.usedDiskSpace = fs.usedDiskSpace := by
  unfold FS.usedDiskSpace
  rw [hd]

theorem FS.quotaOk_congr {fs fs' : FS} (hd : fs'.disk = fs.disk)
    (hs : fs'.diskSize = fs.diskSize) (h : fs.quotaOk) : fs'.quotaOk := by
  unfold FS.quotaOk at h ⊢
  rw [hs, FS.used_congr hd]
  exact h

theorem FS.quotaShort_false_le {fs : FS} {n : Nat} {extra : Int} {total : Nat}
    (h : fs.quotaShort n extra = false) (ht : fs.diskSize = some total) :
    (n : Int) ≤ (total : Int) - (fs.usedDiskSpace : Int) + extra := by
  have hfree : fs.freeDiskSpace =
      some ((total : Int) - (fs.usedDiskSpace : Int)) := by
    unfold FS.freeDiskSpace
    rw [ht]
    rfl
  unfold FS.quotaShort at h
  rw [hfree] at h
  have hnot : ¬ ((n : Int) > ((total : Int) - (fs.usedDiskSpace : Int)) + extra) :=
    of_decide_eq_false h
  omega

/-- The allocation step cannot break the quota invariant: the new usage
after storing the zero-filled buffer. -/
theorem FS.alloc_quotaOk (fsx : FS) (size : Nat)
    (hq : fsx.quotaShort size 0 = false) :
    FS.quotaOk { fsx with
      disk := alSet fsx.nextId (List.replicate size 0) fsx.disk } := by
  unfold FS.quotaOk
  cases hds : fsx.diskSize with
  | none => trivial
  | some total =>
      have hle := FS.quotaShort_false_le hq hds
      have hused : usedOf (alSet fsx.nextId
          (List.replicate size 0) fsx.disk) ≤ usedOf fsx.disk + size := by
        cases hgd : alGet fsx.nextId fsx.disk with
        | none =>
            rw [usedOf_alSet_absent hgd]
            simp
        | some ov =>
            have hp := usedOf_alSet_present hgd (List.replicate size 0)
            have hrep : (List.replicate size 0).length = size :=
              List.length_replicate _ _
            omega
      show usedOf (alSet fsx.nextId (List.replicate size 0) fsx.disk) ≤ total
      rw [FS.usedDiskSpace_eq] at hle
      omega

/-- The quota invariant only looks at `disk` and `diskSize`. -/
theorem FS.quotaOk_update {fs : FS} {d : List (Nat × List Nat)}
    {r : List (Path × Entry)} {m : List (Nat × FileMeta)} {ni cl : Nat}
    (h : FS.quotaOk { fs with disk := d }) :
    FS.quotaOk { registry := r, meta := m, disk := d,
                 diskSize := fs.diskSize, nextId := ni, clock := cl } :=
  FS.quotaOk_congr rfl rfl h

/-- A `createFile` call cannot break the quota invariant. -/
theorem FS.createFile_quotaOk (fs : FS) (p : Path) (size : Nat)
    (h : fs.quotaOk) : (FS.createFile fs p size).1.quotaOk := by
  unfold FS.createFile
  split
  · exact h
  · split
    · next fs1 e heq =>
        by_cases hc : p ≠ [] ∧ p.dropLast ≠ [] ∧ ¬ fs.pathExists p.dropLast
        · rw [if_pos hc] at heq
          have hpres := FS.makeDirectory_preserved fs p.dropLast true
          rw [heq] at hpres
          exact FS.quotaOk_congr hpres.1 hpres.2.2.2.1 h
        · rw [if_neg hc] at heq
          injection heq with hfs hres
          exact Except.noConfusion hres
    · next fs1 u heq =>
        have hpres : mkdirPreserved fs fs1 := by
          by_cases hc : p ≠ [] ∧ p.dropLast ≠ [] ∧ ¬ fs.pathExists p.dropLast
          · rw [if_pos hc] at heq
            have hpres := FS.makeDirectory_preserved fs p.dropLast true
            rw [heq] at hpres
            exact hpres
          · rw [if_neg hc] at heq
            injection heq with hfs hres
            rw [← hfs]
            exact mkdirPreserved_refl fs
        have h1 : fs1.quotaOk := FS.quotaOk_congr hpres.1 hpres.2.2.2.1 h
        split
        · exact h1
        · next hq =>
            exact FS.quotaOk_update
              (FS.alloc_quotaOk fs1 size ((Bool.not_eq_true _).mp hq))

/-- The replacement step of `writeFile` cannot break the quota invariant. -/
theorem FS.writeBuf_quotaOk (fs : FS) (fid : Nat) (data oldBuf : List Nat)
    (hgd : alGet fid fs.disk = some oldBuf)
    (hq : fs.quotaShort data.length (oldBuf.length : Int) = false) :
    FS.quotaOk { fs with disk := alSet fid data fs.disk } := by
  unfold FS.quotaOk
  cases hds : fs.diskSize with
  | none => trivial
  | some total =>
      have hle := FS.quotaShort_false_le hq hds
      have hused := usedOf_alSet_present hgd data
      show usedOf (alSet fid data fs.disk) ≤ total
      rw [FS.usedDiskSpace_eq] at hle
      omega

/-- A `writeFile` call cannot break the quota invariant. -/
theorem FS.writeFile_quotaOk (fs : FS) (d : Descriptor) (data : List Nat)
    (h : fs.quotaOk) : (FS.writeFile fs d data).1.quotaOk := by
  unfold FS.writeFile
  split
  · exact h
  · next oldBuf hgd =>
      split
      · exact h
      · next hq =>
          exact FS.quotaOk_update
            (FS.writeBuf_quotaOk fs d.fid data oldBuf hgd
              ((Bool.not_eq_true _).mp hq))

/-- Every system operation preserves the quota invariant. -/
theorem runSysOp_quotaOk (s : Sys) (op : SysOp) (h : s.fs.quotaOk) :
    (runSysOp s op).fs.quotaOk := by
  cases op with
  | createFile p size =>
      simp only [runSysOp]
      exact FS.createFile_quotaOk s.fs p size h
  | writeFile fid p data =>
      simp only [runSysOp]
      exact FS.writeFile_quotaOk s.fs _ data h
  | openHandle p keep =>
      simp only [runSysOp]
      split
      · split
        · exact h
        · exact h
      · exact h
  | handleWrite i buf at? =>
      simp only [runSysOp]
      split
      · exact h
      · exact h
  | handleTruncate i n =>
      simp only [runSysOp]
      split
      · exact h
      · exact h
  | handleFlush i =>
      simp only [runSysOp]
      split
      · next hh heq =>
          show (Handle.flush s.fs hh).1.quotaOk
          unfold Handle.flush
          by_cases hcl : hh.isClosed
          · rw [if_pos hcl]
            exact h
          · rw [if_neg hcl]
            exact FS.writeFile_quotaOk s.fs _ _ h
      · exact h

/-- The quota invariant holds along every operation sequence. -/
theorem runSysOps_quotaOk (ops : List SysOp) :
    ∀ s : Sys, s.fs.quotaOk → (runSysOps s ops).fs.quotaOk := by
  induction ops with
  | nil => exact fun s h => h
  | cons op rest ih =>
      intro s h
      exact ih (runSysOp s op) (runSysOp_quotaOk s op h)

theorem FS.init_quotaOk (d : Option Nat) : (FS.init d).quotaOk := by
  unfold FS.quotaOk
  cases d with
  | none => trivial
  | some total => exact Nat.zero_le total

/-- The parent-creation step of `createFile` satisfies `mkdirPreserved`. -/
theorem FS.createFile_step1_preserved {fs fs1 : FS} {res : Except JsErr Unit}
    {p : Path}
    (heq : (if p ≠ [] ∧ p.dropLast ≠ [] ∧ ¬ fs.pathExists p.dropLast then
        FS.makeDirectory fs p.dropLast true
      else (fs, Except.ok ())) = (fs1, res)) :
    mkdirPreserved fs fs1 := by
  by_cases hc : p ≠ [] ∧ p.dropLast ≠ [] ∧ ¬ fs.pathExists p.dropLast
  · rw [if_pos hc] at heq
    have hpres := FS.makeDirectory_preserved fs p.dropLast true
    rw [heq] at hpres
    exact hpres
  · rw [if_neg hc] at heq
    injection heq with h1 _
    rw [← h1]
    exact mkdirPreserved_refl fs

theorem FS.quotaShort_congr {fs fs' : FS} (hd : fs'.disk = fs.disk)
    (hs : fs'.diskSize = fs.diskSize) (n : Nat) (extra : Int) :
    fs'.quotaShort n extra = fs.quotaShort n extra := by
  unfold FS.quotaShort FS.freeDiskSpace
  rw [hs, FS.used_congr hd]

/-- A quota-violating `writeFile` is rejected with the `RangeError`, with no
state change at all. -/
theorem FS.writeFile_quota_reject (fs : FS) (d : Descriptor)
    (data oldBuf : List Nat) (hgd : alGet d.fid fs.disk = some oldBuf)
    (hq : fs.quotaShort data.length (oldBuf.length : Int) = true) :
    FS.writeFile fs d data =
      (fs, Except.error (JsErr.rangeError "Not enough free space to write file.")) := by
  unfold FS.writeFile
  split
  · next hnone => rw [hgd] at hnone; exact absurd hnone (by simp)
  · next ob hsome =>
      rw [hgd] at hsome
      injection hsome with hob
      subst hob
      rw [if_pos hq]

/-- Any failing `writeFile` leaves the whole state unchanged. -/
theorem FS.writeFile_error_eq {fs : FS} {d : Descriptor} {data : List Nat}
    {fs' : FS} {e : JsErr}
    (h : FS.writeFile fs d data = (fs', Except.error e)) : fs' = fs := by
  unfold FS.writeFile at h
  split at h
  · injection h with h1 _; exact h1.symm
  · split at h
    · injection h with h1 _; exact h1.symm
    · injection h with _ h2; exact Except.noConfusion h2

/-- A quota-violating `SyncAccessHandle.truncate` is rejected with the
`QuotaExceededError`, with no change to the handle. -/
theorem Handle.truncate_quota_reject (fs : FS) (h : Handle) (n : Int)
    (hcl : h.isClosed = false) (hn : ¬ n < 0)
    (hq : Handle.quotaExceeded fs h n.toNat = true) :
    Handle.truncate fs h n = (h, Except.error quotaErr) := by
  unfold Handle.truncate
  rw [if_neg (by rw [hcl]; exact Bool.false_ne_true), if_neg hn, if_pos hq]

/-- Any failing `SyncAccessHandle.truncate` leaves the handle unchanged. -/
theorem Handle.truncate_error_eq {fs : FS} {h h' : Handle} {n : Int} {e : JsErr}
    (heq : Handle.truncate fs h n = (h', Except.error e)) : h' = h := by
  unfold Handle.truncate at heq
  split at heq
  · injection heq with h1 _; exact h1.symm
  · split at heq
    · injection heq with h1 _; exact h1.symm
    · dsimp only at heq
      split at heq
      · injection heq with h1 _; exact h1.symm
      · injection heq with _ h2; exact Except.noConfusion h2

/-- A quota-violating `createFile` never succeeds. -/
theorem FS.createFile_quota_rejects (fs : FS) (p : Path) (size : Nat)
    (hq : fs.quotaShort size 0 = true) :
    ∀ d : Descriptor, (FS.createFile fs p size).2 ≠ Except.ok d := by
  intro d
  unfold FS.createFile
  split
  · simp
  · split
    · simp
    · next fs1 u heq =>
        have hpres := FS.createFile_step1_preserved heq
        have hq1 : fs1.quotaShort size 0 = true := by
          rw [FS.quotaShort_congr hpres.1 hpres.2.2.2.1]
          exact hq
        rw [if_pos hq1]
        simp

/-- Any failing `createFile` leaves the content store and the descriptor
table unchanged (the registry may have gained parent directories). -/
theorem FS.createFile_error_disk {fs : FS} {p : Path} {size : Nat} {fs' : FS}
    {e : JsErr} (h : FS.createFile fs p size = (fs', Except.error e)) :
    fs'.disk = fs.disk ∧ fs'.meta = fs.meta := by
  unfold FS.createFile at h
  split at h
  · injection h with h1 _
    rw [← h1]
    exact ⟨rfl, rfl⟩
  · split at h
    · next fs1 e2 heq =>
        have hpres := FS.createFile_step1_preserved heq
        injection h with h1 _
        rw [← h1]
        exact ⟨hpres.1, hpres.2.1⟩
    · next fs1 u heq =>
        have hpres := FS.createFile_step1_preserved heq
        split at h
        · injection h with h1 _
          rw [← h1]
          exact ⟨hpres.1, hpres.2.1⟩
        · injection h with _ h2
          exact Except.noConfusion h2

/-! ## Claim theorems: C1 -/

/-- **C1** (amended): along every sequence of `FileSystem.createFile`,
`FileSystem.writeFile` and `SyncAccessHandle` operations (open, write,
truncate, flush), `getUsedDiskSpace() ≤ getTotalDiskSpace()` holds after
every call; a quota-violating `writeFile` raises `RangeError` with no state
change; a quota-violating `truncate` raises `QuotaExceededError` with no
state change; a quota-violating `createFile` never succeeds and leaves the
content store and descriptor table unchanged — but, unlike the original
claim, a failing `createFile` may still have created missing parent
directories before the quota check (see the counterexample). -/
theorem C1_quota_invariant :
    (∀ (d : Option Nat) (ops : List SysOp),
        (runSysOps (Sys.init d) ops).fs.quotaOk) ∧
    (∀ (fs : FS) (d : Descriptor) (data oldBuf : List Nat),
        alGet d.fid fs.disk = some oldBuf →
        fs.quotaShort data.length (oldBuf.length : Int) = true →
        FS.writeFile fs d data =
          (fs, Except.error (JsErr.rangeError "Not enough free space to write file."))) ∧
    (∀ (fs : FS) (h : Handle) (n : Int),
        h.isClosed = false → ¬ n < 0 →
        Handle.quotaExceeded fs h n.toNat = true →
        Handle.truncate fs h n = (h, Except.error quotaErr)) ∧
    (∀ (fs : FS) (p : Path) (size : Nat),
        fs.quotaShort size 0 = true →
        ∀ d : Descriptor, (FS.createFile fs p size).2 ≠ Except.ok d) ∧
    (∀ (fs : FS) (p : Path) (size : Nat) (fs' : FS) (e : JsErr),
        FS.createFile fs p size = (fs', Except.error e) →
        fs'.disk = fs.disk ∧ fs'.meta = fs.meta) :=
  ⟨fun d ops => runSysOps_quotaOk ops (Sys.init d) (FS.init_quotaOk d),
   fun fs d data oldBuf hgd hq => FS.writeFile_quota_reject fs d data oldBuf hgd hq,
   fun fs h n hcl hn hq => Handle.truncate_quota_reject fs h n hcl hn hq,
   fun fs p size hq => FS.createFile_quota_rejects fs p size hq,
   fun _ _ _ _ _ h => FS.createFile_error_disk h⟩

/-- **C1** counterexample: on a 10-byte disk, `createFile("a/b", {size: 20})`
is rejected with the quota `RangeError`, but the state *did* change: the
parent directory `"a"` was created before the quota check. This refutes the
claim's "rejected ... with no state change". -/
theorem C1_counterexample :
    (FS.createFile (FS.init (some 10)) ["a", "b"] 20).2 =
      Except.error (JsErr.rangeError "Not enough free space.") ∧
    (FS.init (some 10)).pathExists ["a"] = false ∧
    (FS.createFile (FS.init (some 10)) ["a", "b"] 20).1.pathExists ["a"] = true :=
  ⟨rfl, rfl, rfl⟩

/-- Witness for `C1_quota_invariant` at concrete inputs: a short operation
sequence keeps the invariant, and a quota-violating `writeFile` on a
concrete 4-byte disk holding a 2-byte file is rejected unchanged. -/
theorem C1_quota_invariant_witness :
    (runSysOps (Sys.init (some 5))
      [SysOp.createFile ["f"] 3, SysOp.writeFile 0 ["f"] [1, 2, 3, 4]]).fs.quotaOk ∧
    FS.writeFile (FS.createFile (FS.init (some 4)) ["f"] 2).1
        { fid := 0, fullPath := ["f"] } [1, 2, 3, 4, 5] =
      ((FS.createFile (FS.init (some 4)) ["f"] 2).1,
        Except.error (JsErr.rangeError "Not enough free space to write file.")) :=
  ⟨C1_quota_invariant.1 (some 5)
      [SysOp.createFile ["f"] 3, SysOp.writeFile 0 ["f"] [1, 2, 3, 4]],
   C1_quota_invariant.2.1 (FS.createFile (FS.init (some 4)) ["f"] 2).1
      { fid := 0, fullPath := ["f"] } [1, 2, 3, 4, 5] [0, 0] rfl rfl⟩

/-! ## Claim theorems: C2 -/

/-- One `setRead`/`setReadwrite` call establishes the first coupling
conjunct: afterwards `readwrite = granted` implies `read = granted`. -/
theorem applyPermOp_coupling (p : PermVal) (o : PermOp) :
    (applyPermOp p o).readwrite = PermState.granted →
    (applyPermOp p o).read = PermState.granted := by
  obtain ⟨r, w⟩ := p
  cases o with
  | setRead s => cases s <;> simp [applyPermOp, setReadVal]
  | setReadwrite s => cases s <;> simp [applyPermOp, setReadwriteVal]

/-- **C2** (amended): for every Permission instance and every *nonempty*
sequence of `setRead`/`setReadwrite` calls, `readwrite == granted` implies
`read == granted` afterwards. The claim's second conjunct
(`read != granted ⟹ readwrite == read`) does not hold in general — see the
counterexample — and the first conjunct needs at least one call, since the
constructor accepts arbitrary initial pairs. -/
theorem C2_permission_coupling (p : PermVal) (ops : List PermOp)
    (hne : ops ≠ []) :
    (applyPermOps p ops).readwrite = PermState.granted →
    (applyPermOps p ops).read = PermState.granted := by
  induction ops generalizing p with
  | nil => exact absurd rfl hne
  | cons o rest ih =>
      by_cases hrest : rest = []
      · subst hrest
        exact applyPermOp_coupling p o
      · show (applyPermOps (applyPermOp p o) rest).readwrite = _ →
          (applyPermOps (applyPermOp p o) rest).read = _
        exact ih (applyPermOp p o) hrest

/-- **C2** counterexample: on a fresh default Permission
(`read = readwrite = "prompt"`), a single `setReadwrite("denied")` call
leaves `read = "prompt"` and `readwrite = "denied"`: `read ≠ granted` yet
`readwrite ≠ read`, refuting the claim's second conjunct. -/
theorem C2_counterexample :
    ¬ (((applyPermOps { read := PermState.prompt, readwrite := PermState.prompt }
          [PermOp.setReadwrite PermState.denied]).readwrite = PermState.granted →
        (applyPermOps { read := PermState.prompt, readwrite := PermState.prompt }
          [PermOp.setReadwrite PermState.denied]).read = PermState.granted) ∧
       ((applyPermOps { read := PermState.prompt, readwrite := PermState.prompt }
          [PermOp.setReadwrite PermState.denied]).read ≠ PermState.granted →
        (applyPermOps { read := PermState.prompt, readwrite := PermState.prompt }
          [PermOp.setReadwrite PermState.denied]).readwrite =
        (applyPermOps { read := PermState.prompt, readwrite := PermState.prompt }
          [PermOp.setReadwrite PermState.denied]).read)) := by
  decide

/-- Witness for `C2_permission_coupling`: a concrete nonempty call sequence
ending in `setReadwrite("granted")`. -/
theorem C2_permission_coupling_witness :
    (applyPermOps { read := PermState.prompt, readwrite := PermState.prompt }
      [PermOp.setReadwrite PermState.granted]).read = PermState.granted :=
  C2_permission_coupling
    { read := PermState.prompt, readwrite := PermState.prompt }
    [PermOp.setReadwrite PermState.granted]
    (by simp) (by decide)

/-! ## Concrete fixtures for the SyncAccessHandle claims -/

/-- An unlimited-disk file system holding the fresh 0-byte file `"f"`. -/
def fileFS : FS := (FS.createFile (FS.init none) ["f"] 0).1

/-- The descriptor returned for `"f"` (identity 0). -/
def fileDesc : Descriptor := { fid := 0, fullPath := ["f"] }

/-- The `SyncAccessHandle` opened over `"f"` with `keepContent = true`
(the file is empty, so the temp buffer starts empty). -/
def fileHandle : Handle :=
  { descriptor := fileDesc, tempFile := [], cursor := 0, isClosed := false }

/-! ## Claim theorems: C7 -/

/-- Buffer after `write([1,2,3], {at: 5})` on the fresh handle. -/
def c7h1 : Handle := (Handle.write fileFS fileHandle [1, 2, 3] (some 5)).1

/-- Buffer after the subsequent `truncate(3)`. -/
def c7h2 : Handle := (Handle.truncate fileFS c7h1 3).1

/-- Buffer after the subsequent `truncate(8)`. -/
def c7h3 : Handle := (Handle.truncate fileFS c7h2 8).1

/-- **C7**: on a handle over a fresh 0-byte file, `write([1,2,3], {at: 5})`
succeeds and yields the 8-byte buffer `[0,0,0,0,0,1,2,3]` (bytes 0..4 zero,
bytes 5..7 the written data); `truncate(3)` then `truncate(8)` yields an
8-byte buffer whose bytes 3..7 are zero — the shrunk content is not
restored by the regrow. -/
theorem C7_zero_fill_round_trip :
    Handle.make fileFS fileDesc true = Except.ok fileHandle ∧
    (Handle.write fileFS fileHandle [1, 2, 3] (some 5)).2 = Except.ok 3 ∧
    c7h1.tempFile = [0, 0, 0, 0, 0, 1, 2, 3] ∧
    c7h1.tempFile.take 5 = List.replicate 5 0 ∧
    c7h1.tempFile.drop 5 = [1, 2, 3] ∧
    (Handle.truncate fileFS c7h1 3).2 = Except.ok () ∧
    c7h2.tempFile = [0, 0, 0] ∧
    (Handle.truncate fileFS c7h2 8).2 = Except.ok () ∧
    c7h3.tempFile.length = 8 ∧
    c7h3.tempFile.drop 3 = List.replicate 5 0 :=
  ⟨rfl, rfl, rfl, rfl, rfl, rfl, rfl, rfl, rfl, rfl⟩

/-! ## Claim theorems: C8 -/

/-- Handle after the first sequential `write([1])`. -/
def c8h1 : Handle := (Handle.write fileFS fileHandle [1] none).1

/-- Handle after the second sequential `write([1])`. -/
def c8h2 : Handle := (Handle.write fileFS c8h1 [1] none).1

/-- Handle after the interleaved positional `write([9], {at: 0})`. -/
def c8h3 : Handle := (Handle.write fileFS c8h2 [9] (some 0)).1

/-- Handle after the next sequential `write([7])`. -/
def c8h4 : Handle := (Handle.write fileFS c8h3 [7] none).1

/-- **C8** counterexample: two sequential `write([1])` calls leave the
cursor at 2 with buffer `[1,1]`; the interleaved `write([9], {at: 0})`
*does* move the cursor (to `0 + 1 = 1`), so the next sequential `write([7])`
starts at position 1, overwriting byte 1 (`[9,7]`) instead of appending at
position 2 as the claim asserts. -/
theorem C8_counterexample :
    c8h2.cursor = 2 ∧ c8h2.tempFile = [1, 1] ∧
    c8h3.cursor = 1 ∧ ¬ c8h3.cursor = 2 ∧
    c8h4.tempFile = [9, 7] ∧ ¬ c8h4.tempFile = [9, 1, 7] := by
  refine ⟨rfl, rfl, rfl, ?_, rfl, ?_⟩ <;> decide

/-- Every successful `SyncAccessHandle.write` sets the cursor to the write
position (explicit `at` if given, else the old cursor) plus the number of
bytes written, and reports `buffer.length` bytes written. -/
theorem Handle.write_ok_cursor {fs : FS} {h : Handle} {buf : List Nat}
    {at? : Option Int} {h' : Handle} {k : Nat}
    (heq : Handle.write fs h buf at? = (h', Except.ok k)) :
    h'.cursor = (at?.getD (h.cursor : Int)).toNat + buf.length ∧
    k = buf.length := by
  unfold Handle.write at heq
  split at heq
  · injection heq with _ h2; exact Except.noConfusion h2
  · dsimp only at heq
    split at heq
    · injection heq with _ h2; exact Except.noConfusion h2
    · repeat' split at heq
      all_goals injection heq with h1 h2
      all_goals first
        | exact Except.noConfusion h2
        | exact ⟨by rw [← h1], by injection h2 with h3; exact h3.symm⟩

/-- **C8** (amended): two consecutive `write(buf)` calls without `at` append
one after the other, but a positional `write(buf, {at})` *also* moves the
cursor — after any successful write the cursor is the (resolved) write
position plus the bytes written, so the next sequential write starts where
the *last* write (positional or not) ended. Concretely, after two
sequential `write([1])` and one `write([9], {at: 0})` the cursor is 1, and
the next sequential `write([7])` produces `[9,7]`. -/
theorem C8_sequential_cursor :
    (∀ (fs : FS) (h : Handle) (buf : List Nat) (h' : Handle) (k : Nat),
        Handle.write fs h buf none = (h', Except.ok k) →
        h'.cursor = h.cursor + buf.length) ∧
    (∀ (fs : FS) (h : Handle) (buf : List Nat) (a : Int) (h' : Handle) (k : Nat),
        Handle.write fs h buf (some a) = (h', Except.ok k) →
        h'.cursor = a.toNat + buf.length) ∧
    c8h1.cursor = 1 ∧ c8h1.tempFile = [1] ∧
    c8h2.cursor = 2 ∧ c8h2.tempFile = [1, 1] ∧
    c8h3.cursor = 1 ∧ c8h4.tempFile = [9, 7] := by
  refine ⟨?_, ?_, rfl, rfl, rfl, rfl, rfl, rfl⟩
  · intro fs h buf h' k heq
    have hc := (Handle.write_ok_cursor heq).1
    simpa using hc
  · intro fs h buf a h' k heq
    exact (Handle.write_ok_cursor heq).1

/-- Witness for `C8_sequential_cursor`: its general conjuncts applied to the
concrete fixture writes. -/
theorem C8_sequential_cursor_witness :
    c8h1.cursor = fileHandle.cursor + 1 ∧ c8h3.cursor = Int.toNat 0 + 1 :=
  ⟨C8_sequential_cursor.1 fileFS fileHandle [1] c8h1 1 rfl,
   C8_sequential_cursor.2.1 fileFS c8h2 [9] 0 c8h3 1 rfl⟩

/-! ## Claim theorems: C3 -/

/-- What a failing `SyncAccessHandle.write` can do: the cursor, descriptor
and state flag are untouched, and the temp buffer is the old one possibly
extended by a zero-filled tail (the gap growth performed *before* the quota
check when the write position lies past the end of the buffer). -/
theorem Handle.write_error_state {fs : FS} {h : Handle} {buf : List Nat}
    {at? : Option Int} {h' : Handle} {e : JsErr}
    (heq : Handle.write fs h buf at? = (h', Except.error e)) :
    h'.cursor = h.cursor ∧ h'.descriptor = h.descriptor ∧
    h'.isClosed = h.isClosed ∧
    ∃ k : Nat, h'.tempFile = h.tempFile ++ List.replicate k 0 := by
  unfold Handle.write at heq
  split at heq
  · injection heq with h1 _
    rw [← h1]
    exact ⟨rfl, rfl, rfl, 0, by simp⟩
  · dsimp only at heq
    split at heq
    · injection heq with h1 _
      rw [← h1]
      exact ⟨rfl, rfl, rfl, 0, by simp⟩
    · repeat' split at heq
      all_goals injection heq with h1 h2
      all_goals first
        | exact Except.noConfusion h2
        | (rw [← h1]; exact ⟨rfl, rfl, rfl, _, rfl⟩)
        | (rw [← h1]; exact ⟨rfl, rfl, rfl, 0, by simp⟩)

/-- A concrete file system with a 3-byte ceiling holding the empty file
`"h"`. -/
def c3fs : FS := (FS.createFile (FS.init (some 3)) ["h"] 0).1

/-- A fresh handle over `"h"`. -/
def c3h : Handle :=
  { descriptor := { fid := 0, fullPath := ["h"] }, tempFile := [], cursor := 0,
    isClosed := false }

/-- **C3** counterexample: `write([1], {at: 5})` on a fresh handle over an
empty file with only 3 free bytes raises the quota `QuotaExceededError`,
yet the handle's buffer length went from 0 to 5 — the zero-fill growth to
the write position happened before the quota check. Likewise `createFile`
on an oversized file still creates the missing parent directory. -/
theorem C3_counterexample :
    (Handle.write c3fs c3h [1] (some 5)).2 = Except.error quotaErr ∧
    c3h.tempFile.length = 0 ∧
    (Handle.write c3fs c3h [1] (some 5)).1.tempFile.length = 5 ∧
    (FS.createFile (FS.init (some 7)) ["x", "y"] 30).2 =
      Except.error (JsErr.rangeError "Not enough free space.") ∧
    (FS.init (some 7)).pathExists ["x"] = false ∧
    (FS.createFile (FS.init (some 7)) ["x", "y"] 30).1.pathExists ["x"] = true :=
  ⟨rfl, rfl, rfl, rfl, rfl, rfl⟩

/-- **C3** (amended): when a core operation raises, almost no observable
state is mutated — a failing `writeFile` leaves the file system unchanged, a
failing `truncate` leaves the handle unchanged, and a failing handle `write`
keeps the cursor, descriptor and state flag — with two exceptions forced by
the code: a failing `createFile` may have created missing parent
directories (its content store and descriptor table are still untouched),
and a quota-failing positional `write` past the end of the buffer leaves
the buffer zero-extended up to the write position. -/
theorem C3_atomicity_on_rejection :
    (∀ (fs : FS) (d : Descriptor) (data : List Nat) (fs' : FS) (e : JsErr),
        FS.writeFile fs d data = (fs', Except.error e) → fs' = fs) ∧
    (∀ (fs : FS) (h h' : Handle) (n : Int) (e : JsErr),
        Handle.truncate fs h n = (h', Except.error e) → h' = h) ∧
    (∀ (fs : FS) (p : Path) (size : Nat) (fs' : FS) (e : JsErr),
        FS.createFile fs p size = (fs', Except.error e) →
        fs'.disk = fs.disk ∧ fs'.meta = fs.meta) ∧
    (∀ (fs : FS) (h : Handle) (buf : List Nat) (at? : Option Int)
        (h' : Handle) (e : JsErr),
        Handle.write fs h buf at? = (h', Except.error e) →
        h'.cursor = h.cursor ∧ h'.descriptor = h.descriptor ∧
        h'.isClosed = h.isClosed ∧
        ∃ k : Nat, h'.tempFile = h.tempFile ++ List.replicate k 0) :=
  ⟨fun _ _ _ _ _ heq => FS.writeFile_error_eq heq,
   fun _ _ _ _ _ heq => Handle.truncate_error_eq heq,
   fun _ _ _ _ _ heq => FS.createFile_error_disk heq,
   fun _ _ _ _ _ _ heq => Handle.write_error_state heq⟩

/-- The handle state produced by the quota-failing write of the
counterexample: the buffer was zero-extended to the write position. -/
def c3hFail : Handle :=
  { descriptor := { fid := 0, fullPath := ["h"] }
    tempFile := [0, 0, 0, 0, 0], cursor := 0, isClosed := false }

/-- Witness for `C3_atomicity_on_rejection`: applied to the concrete
quota-failing write of the counterexample, whose cursor and descriptor are
untouched. -/
theorem C3_atomicity_on_rejection_witness :
    c3hFail.cursor = c3h.cursor ∧ c3hFail.descriptor = c3h.descriptor :=
  ⟨(C3_atomicity_on_rejection.2.2.2 c3fs c3h [1] (some 5) c3hFail quotaErr
      rfl).1,
   (C3_atomicity_on_rejection.2.2.2 c3fs c3h [1] (some 5) c3hFail quotaErr
      rfl).2.1⟩

/-! ## Claim theorems: C4 -/

/-- An open `truncate` with a non-negative size fails with the
`QuotaExceededError` exactly when `ensureHasFreeMemory` trips. -/
theorem Handle.truncate_quota_iff (fs : FS) (h : Handle) (n : Int)
    (hcl : h.isClosed = false) (hn : ¬ n < 0) :
    (Handle.truncate fs h n).2 = Except.error quotaErr ↔
      Handle.quotaExceeded fs h n.toNat = true := by
  constructor
  · intro herr
    by_cases hq : Handle.quotaExceeded fs h n.toNat
    · exact hq
    · exfalso
      unfold Handle.truncate at herr
      rw [if_neg (by rw [hcl]; exact Bool.false_ne_true), if_neg hn] at herr
      dsimp only at herr
      rw [if_neg hq] at herr
      exact Except.noConfusion herr
  · intro hq
    rw [Handle.truncate_quota_reject fs h n hcl hn hq]

/-- Helper: outcome of the final quota ite of `Handle.write`, with the
buffer-length computation replaced by an equal value. -/
theorem quota_ite_iff (fs : FS) (h : Handle) {E M : Nat} (hEM : E = M)
    (a b : Handle) (k : Nat) :
    ((if Handle.quotaExceeded fs h E = true then (a, Except.error quotaErr)
      else (b, Except.ok k)) : Handle × Except JsErr Nat).2 =
        Except.error quotaErr ↔
    Handle.quotaExceeded fs h M = true := by
  subst hEM
  by_cases hq : Handle.quotaExceeded fs h E = true
  · rw [if_pos hq]
    simp [hq]
  · rw [if_neg hq]
    simp [hq]

/-- An open `write` with a non-negative resolved position fails with the
`QuotaExceededError` exactly when the requested resulting buffer length —
`max(current buffer length, position + bytes)` — trips
`ensureHasFreeMemory`. -/
theorem Handle.write_quota_iff (fs : FS) (h : Handle) (buf : List Nat)
    (at? : Option Int) (hcl : h.isClosed = false)
    (hpos : ¬ at?.getD (h.cursor : Int) < 0) :
    (Handle.write fs h buf at?).2 = Except.error quotaErr ↔
      Handle.quotaExceeded fs h
        (max h.tempFile.length
          ((at?.getD (h.cursor : Int)).toNat + buf.length)) = true := by
  unfold Handle.write
  rw [if_neg (by rw [hcl]; exact Bool.false_ne_true)]
  dsimp only
  rw [if_neg hpos]
  split
  · next hgrow =>
      split
      · next htail => exact absurd htail (by omega)
      · next htail =>
          exact quota_ite_iff fs h (by
            simp only [List.length_take, List.length_append, List.length_nil,
              List.length_replicate]
            omega) _ _ _
  · next hgrow =>
      split
      · next htail =>
          exact quota_ite_iff fs h (by
            simp only [List.length_take, List.length_drop]
            omega) _ _ _
      · next htail =>
          exact quota_ite_iff fs h (by
            simp only [List.length_take, List.length_nil]
            omega) _ _ _

/-- **C4** (amended): `ensureHasFreeMemory` computes the available room as
`FileSystem.getFreeDiskSpace()` plus the descriptor's *current* `size`
field — the persisted size at the time of the call, which coincides with
the construction-time size only until a `flush` (or any `writeFile` on the
same descriptor) updates it. Subject to that reading, an open `truncate`
(resp. `write`) with non-negative argument fails with the quota condition
exactly when the requested resulting buffer length exceeds that amount. -/
theorem C4_quota_check_live_size :
    (∀ (fs : FS) (h : Handle) (n : Nat),
        Handle.quotaExceeded fs h n =
          fs.quotaShort n (fs.metaSize h.descriptor.fid : Int)) ∧
    (∀ (fs : FS) (h : Handle) (n : Int), h.isClosed = false → ¬ n < 0 →
        ((Handle.truncate fs h n).2 = Except.error quotaErr ↔
          Handle.quotaExceeded fs h n.toNat = true)) ∧
    (∀ (fs : FS) (h : Handle) (buf : List Nat) (at? : Option Int),
        h.isClosed = false → ¬ at?.getD (h.cursor : Int) < 0 →
        ((Handle.write fs h buf at?).2 = Except.error quotaErr ↔
          Handle.quotaExceeded fs h
            (max h.tempFile.length
              ((at?.getD (h.cursor : Int)).toNat + buf.length)) = true)) :=
  ⟨fun _ _ _ => rfl,
   fun fs h n hcl hn => Handle.truncate_quota_iff fs h n hcl hn,
   fun fs h buf at? hcl hpos => Handle.write_quota_iff fs h buf at? hcl hpos⟩

/-- A 10-byte disk with the fresh empty file `"g"`. -/
def c4fs0 : FS := (FS.createFile (FS.init (some 10)) ["g"] 0).1

/-- A fresh handle over `"g"` (construction-time persisted size: 0). -/
def c4h0 : Handle :=
  { descriptor := { fid := 0, fullPath := ["g"] }, tempFile := [], cursor := 0,
    isClosed := false }

/-- The handle after writing 5 bytes at position 0 (not yet flushed). -/
def c4h1 : Handle := (Handle.write c4fs0 c4h0 [1, 2, 3, 4, 5] (some 0)).1

/-- The file system after `flush` persisted the 5 bytes. -/
def c4fs1 : FS := (Handle.flush c4fs0 c4h1).1

/-- **C4** counterexample: after a flush, the persisted size of `"g"` is 5
and the free space is 5. Against the claim's rule — free space plus the
*construction-time* size 0, i.e. room for only 5 bytes — a `truncate(10)`
would have to fail; the code instead reads the descriptor's live `size`
field (now 5), computes room `5 + 5 = 10`, and the call succeeds. -/
theorem C4_counterexample :
    c4fs0.metaSize 0 = 0 ∧
    (Handle.flush c4fs0 c4h1).2 = Except.ok () ∧
    c4fs1.freeDiskSpace = some 5 ∧
    c4fs1.metaSize 0 = 5 ∧
    ((10 : Int) > 5 + 0) ∧
    (Handle.truncate c4fs1 c4h1 10).2 = Except.ok () ∧
    (Handle.truncate c4fs1 c4h1 10).1.tempFile.length = 10 :=
  ⟨rfl, rfl, rfl, rfl, by decide, rfl, rfl⟩

/-- Witness for `C4_quota_check_live_size`: a concrete oversized `truncate`
on the 3-byte-disk fixture is rejected exactly as the iff predicts. -/
theorem C4_quota_check_live_size_witness :
    (Handle.truncate c3fs c3h 5).2 = Except.error quotaErr :=
  (C4_quota_check_live_size.2.1 c3fs c3h 5 rfl (by decide)).mpr rfl

/-! ## Claim theorems: C9 — the size-consistency invariant -/

/-- The implicit size-consistency invariant: registry keys are unique, file
identities are below the id counter and distinct across paths, and every
registered file entry has a content-store buffer whose length equals the
descriptor's `size` field. -/
structure FsConsistent (fs : FS) : Prop where
  nodup : (alKeys fs.registry).Nodup
  fresh : ∀ (p : Path) (fid : Nat),
      alGet p fs.registry = some (Entry.file fid) → fid < fs.nextId
  inj : ∀ (p q : Path) (fid : Nat),
      alGet p fs.registry = some (Entry.file fid) →
      alGet q fs.registry = some (Entry.file fid) → p = q
  sizes : ∀ (p : Path) (fid : Nat),
      alGet p fs.registry = some (Entry.file fid) →
      ∃ (buf : List Nat) (m : FileMeta), alGet fid fs.disk = some buf ∧
        alGet fid fs.meta = some m ∧ m.size = buf.length

theorem FsConsistent.init (d : Option Nat) : FsConsistent (FS.init d) := by
  have hfile : ∀ (p : Path) (fid : Nat),
      alGet p (FS.init d).registry = some (Entry.file fid) → False := by
    intro p fid hreg
    by_cases hp : p = ([] : Path)
    · subst hp
      simp [FS.init, alGet] at hreg
    · simp [FS.init, alGet, hp] at hreg
  exact ⟨by simp [FS.init, alKeys],
    fun p fid hreg => (hfile p fid hreg).elim,
    fun p q fid hr1 _ => (hfile p fid hr1).elim,
    fun p fid hreg => (hfile p fid hreg).elim⟩

/-- Lookup in a registry with one entry overwritten. -/
theorem alGet_alSet_cases {α β : Type} [DecidableEq α] {q k : α} {v : β}
    {l : List (α × β)} {w : β} (h : alGet q (alSet k v l) = some w) :
    (q = k ∧ w = v) ∨ (q ≠ k ∧ alGet q l = some w) := by
  by_cases hqk : q = k
  · subst hqk
    rw [alGet_alSet_self] at h
    injection h with hw
    exact Or.inl ⟨rfl, hw.symm⟩
  · rw [alGet_alSet_ne _ _ hqk] at h
    exact Or.inr ⟨hqk, h⟩

/-- Lookup in a registry with one entry erased (unique keys). -/
theorem alGet_alErase_cases {α β : Type} [DecidableEq α] {q k : α}
    {l : List (α × β)} {w : β} (hnd : (alKeys l).Nodup)
    (h : alGet q (alErase k l) = some w) :
    q ≠ k ∧ alGet q l = some w := by
  by_cases hqk : q = k
  · subst hqk
    rw [alGet_alErase_self q hnd] at h
    exact Option.noConfusion h
  · rw [alGet_alErase_ne _ hqk] at h
    exact ⟨hqk, h⟩

theorem FsConsistent.of_mkdirPreserved {fs fs' : FS}
    (hp : mkdirPreserved fs fs') (h : FsConsistent fs) : FsConsistent fs' := by
  obtain ⟨hdisk, hmeta, hnext, _, hreg, hnodup⟩ := hp
  refine ⟨hnodup h.nodup, ?_, ?_, ?_⟩
  · intro p fid hr
    rw [hnext]
    exact h.fresh p fid ((hreg p fid).mp hr)
  · intro p q fid hr1 hr2
    exact h.inj p q fid ((hreg p fid).mp hr1) ((hreg q fid).mp hr2)
  · intro p fid hr
    rw [hdisk, hmeta]
    exact h.sizes p fid ((hreg p fid).mp hr)

/-- Registry lookups at paths strictly longer than the created one are not
affected by `makeDirectory`. -/
theorem FS.makeDirectory_longer_unchanged (fs : FS) (p : Path) (r : Bool)
    (q : Path) (hq : q.length > p.length) :
    alGet q (FS.makeDirectory fs p r).1.registry = alGet q fs.registry :=
  (FS.makeDirectoryAux_preserved (p.length + 1) fs p r).2 q hq

/-- The allocation-plus-registration step of a successful `createFile`
preserves the invariant, provided the target path is absent. -/
theorem FsConsistent.alloc {fs1 : FS} (p : Path) (size : Nat)
    (h1 : FsConsistent fs1) :
    FsConsistent { fs1 with
      disk := alSet fs1.nextId (List.replicate size 0) fs1.disk
      meta := alSet fs1.nextId
        { size := size, lastModified := some fs1.clock } fs1.meta
      registry := alSet p (Entry.file fs1.nextId) fs1.registry
      nextId := fs1.nextId + 1
      clock := fs1.clock + 1 } := by
  refine ⟨alKeys_alSet_nodup p _ h1.nodup, ?_, ?_, ?_⟩
  · intro q fid hr
    rcases alGet_alSet_cases hr with ⟨hqp, hfid⟩ | ⟨hqp, hold⟩
    · injection hfid with hfid
      show fid < fs1.nextId + 1
      omega
    · have := h1.fresh q fid hold
      show fid < fs1.nextId + 1
      omega
  · intro q1 q2 fid hr1 hr2
    rcases alGet_alSet_cases hr1 with ⟨hq1, hfid1⟩ | ⟨hq1, hold1⟩ <;>
      rcases alGet_alSet_cases hr2 with ⟨hq2, hfid2⟩ | ⟨hq2, hold2⟩
    · rw [hq1, hq2]
    · injection hfid1 with hfid1
      have := h1.fresh q2 fid hold2
      omega
    · injection hfid2 with hfid2
      have := h1.fresh q1 fid hold1
      omega
    · exact h1.inj q1 q2 fid hold1 hold2
  · intro q fid hr
    rcases alGet_alSet_cases hr with ⟨hqp, hfid⟩ | ⟨hqp, hold⟩
    · injection hfid with hfid
      subst hfid
      refine ⟨List.replicate size 0,
        { size := size, lastModified := some fs1.clock }, ?_, ?_, ?_⟩
      · exact alGet_alSet_self _ _ _
      · exact alGet_alSet_self _ _ _
      · simp
    · have hne : fid ≠ fs1.nextId := by
        have := h1.fresh q fid hold
        omega
      obtain ⟨buf, m, hd, hm, hsz⟩ := h1.sizes q fid hold
      exact ⟨buf, m, by rw [alGet_alSet_ne _ _ hne]; exact hd,
        by rw [alGet_alSet_ne _ _ hne]; exact hm, hsz⟩

/-- `createFile` preserves the size-consistency invariant. -/
theorem FsConsistent.createFile (fs : FS) (p : Path) (size : Nat)
    (h : FsConsistent fs) : FsConsistent (FS.createFile fs p size).1 := by
  unfold FS.createFile
  split
  · exact h
  · split
    · next fs1 e heq =>
        exact FsConsistent.of_mkdirPreserved
          (FS.createFile_step1_preserved heq) h
    · next fs1 u heq =>
        have h1 : FsConsistent fs1 :=
          FsConsistent.of_mkdirPreserved
            (FS.createFile_step1_preserved heq) h
        split
        · exact h1
        · exact FsConsistent.alloc p size h1

/-- `writeFile` preserves the size-consistency invariant. -/
theorem FsConsistent.writeFile (fs : FS) (d : Descriptor) (data : List Nat)
    (h : FsConsistent fs) : FsConsistent (FS.writeFile fs d data).1 := by
  unfold FS.writeFile
  split
  · exact h
  · next oldBuf hgd =>
      split
      · exact h
      · refine ⟨h.nodup, h.fresh, h.inj, ?_⟩
        intro q fid hr
        by_cases hfd : fid = d.fid
        · subst hfd
          refine ⟨data, { size := data.length, lastModified := some fs.clock },
            ?_, ?_, rfl⟩
          · exact alGet_alSet_self _ _ _
          · exact alGet_alSet_self _ _ _
        · obtain ⟨buf, m, hd, hm, hsz⟩ := h.sizes q fid hr
          exact ⟨buf, m, by rw [alGet_alSet_ne _ _ hfd]; exact hd,
            by rw [alGet_alSet_ne _ _ hfd]; exact hm, hsz⟩

/-- Erasing any registry entry (without touching the content store)
preserves the invariant. -/
theorem FsConsistent.eraseEntry {fs : FS} (p : Path) (h : FsConsistent fs) :
    FsConsistent { fs with registry := alErase p fs.registry } := by
  refine ⟨alKeys_alErase_nodup p h.nodup, ?_, ?_, ?_⟩
  · intro q fid hr
    obtain ⟨_, hold⟩ := alGet_alErase_cases h.nodup hr
    exact h.fresh q fid hold
  · intro q1 q2 fid hr1 hr2
    obtain ⟨_, hold1⟩ := alGet_alErase_cases h.nodup hr1
    obtain ⟨_, hold2⟩ := alGet_alErase_cases h.nodup hr2
    exact h.inj q1 q2 fid hold1 hold2
  · intro q fid hr
    obtain ⟨_, hold⟩ := alGet_alErase_cases h.nodup hr
    exact h.sizes q fid hold

/-- Removing a file entry together with its content-store record preserves
the invariant. -/
theorem FsConsistent.eraseFile {fs : FS} {p : Path} {fid : Nat}
    (h : FsConsistent fs) (hget : alGet p fs.registry = some (Entry.file fid)) :
    FsConsistent { fs with
      disk := alErase fid fs.disk
      registry := alErase p fs.registry } := by
  refine ⟨alKeys_alErase_nodup p h.nodup, ?_, ?_, ?_⟩
  · intro q fid' hr
    obtain ⟨_, hold⟩ := alGet_alErase_cases h.nodup hr
    exact h.fresh q fid' hold
  · intro q1 q2 fid' hr1 hr2
    obtain ⟨_, hold1⟩ := alGet_alErase_cases h.nodup hr1
    obtain ⟨_, hold2⟩ := alGet_alErase_cases h.nodup hr2
    exact h.inj q1 q2 fid' hold1 hold2
  · intro q fid' hr
    obtain ⟨hqp, hold⟩ := alGet_alErase_cases h.nodup hr
    have hne : fid' ≠ fid := by
      intro hcontra
      subst hcontra
      exact hqp (h.inj q p fid' hold hget)
    obtain ⟨buf, m, hd, hm, hsz⟩ := h.sizes q fid' hold
    exact ⟨buf, m, by rw [alGet_alErase_ne _ hne]; exact hd, hm, hsz⟩

/-- `removeAux` preserves the size-consistency invariant for any fuel. -/
theorem FsConsistent.removeAux :
    ∀ (fuel : Nat) (fs : FS) (p : Path) (r : Bool), FsConsistent fs →
      FsConsistent (FS.removeAux fuel fs p r).1 := by
  intro fuel
  induction fuel with
  | zero => exact fun fs p r h => h
  | succ n ih =>
      intro fs p r h
      have hfold : ∀ (cs : List Path) (fs0 : FS), FsConsistent fs0 →
          FsConsistent (cs.foldl
            (fun acc c => (FS.removeAux n acc c r).1) fs0) := by
        intro cs
        induction cs with
        | nil => exact fun fs0 h0 => h0
        | cons c rest ihc => exact fun fs0 h0 => ihc _ (ih fs0 c r h0)
      cases p with
      | nil => exact h
      | cons a rest =>
          rw [FS.removeAux]
          split
      -- file branch: the inner match on the registry entry
          · split
            · next fid hget => exact FsConsistent.eraseFile h hget
            · exact h
          · dsimp only
            split
            · exact FsConsistent.eraseEntry _ h
            · split
              · exact h
              · exact FsConsistent.eraseEntry _
                  (hfold (fs.childPaths (a :: rest)) fs h)
          · exact fun hc => List.noConfusion hc

/-- `purge` resets to a consistent state. -/
theorem FsConsistent.purge (fs : FS) : FsConsistent fs.purge := by
  have hfile : ∀ (p : Path) (fid : Nat),
      alGet p fs.purge.registry = some (Entry.file fid) → False := by
    intro p fid hreg
    by_cases hp : p = ([] : Path)
    · subst hp
      simp [FS.purge, alGet] at hreg
    · simp [FS.purge, alGet, hp] at hreg
  exact ⟨by simp [FS.purge, alKeys],
    fun p fid hreg => (hfile p fid hreg).elim,
    fun p q fid hr1 _ => (hfile p fid hr1).elim,
    fun p fid hreg => (hfile p fid hreg).elim⟩

/-- Every public operation preserves the size-consistency invariant. -/
theorem FsConsistent.step (fs : FS) (op : FsOp) (h : FsConsistent fs) :
    FsConsistent (runFsOp fs op) := by
  cases op with
  | createFile p size =>
      simp only [runFsOp]
      exact FsConsistent.createFile fs p size h
  | writeFile fid p data =>
      simp only [runFsOp]
      exact FsConsistent.writeFile fs { fid := fid, fullPath := p } data h
  | remove p recursive =>
      simp only [runFsOp]
      exact FsConsistent.removeAux _ fs p recursive h
  | purge =>
      simp only [runFsOp]
      exact FsConsistent.purge fs

/-- **C9**: in every state reachable by any sequence of the public
operations `createFile`, `writeFile` (which also implements
`SyncAccessHandle.flush`), `remove` and `purge`, every registered file
entry's `size` field equals the byte length of its content-store buffer;
hence `getFileSize(path)` returns exactly the descriptor's `size` for every
registered file path. -/
theorem C9_size_consistency :
    (∀ (d : Option Nat) (ops : List FsOp),
        FsConsistent (runFsOps (FS.init d) ops)) ∧
    (∀ fs : FS, FsConsistent fs →
        ∀ (p : Path) (fid : Nat),
          alGet p fs.registry = some (Entry.file fid) →
          FS.getFileSize fs p = some (fs.metaSize fid)) := by
  constructor
  · intro d ops
    have hrun : ∀ (ops : List FsOp) (fs : FS), FsConsistent fs →
        FsConsistent (runFsOps fs ops) := by
      intro ops
      induction ops with
      | nil => exact fun fs h => h
      | cons op rest ihop =>
          exact fun fs h => ihop (runFsOp fs op) (FsConsistent.step fs op h)
    exact hrun ops (FS.init d) (FsConsistent.init d)
  · intro fs h p fid hreg
    obtain ⟨buf, m, hd, hm, hsz⟩ := h.sizes p fid hreg
    unfold FS.getFileSize
    rw [hreg]
    show Option.map List.length (alGet fid fs.disk) = some (fs.metaSize fid)
    rw [hd]
    unfold FS.metaSize
    rw [hm]
    simp [hsz]

/-- Witness for `C9_size_consistency`: the reachable one-file system
`fileFS` satisfies the invariant, and `getFileSize` agrees with the
descriptor's `size` field there. -/
theorem C9_size_consistency_witness :
    FS.getFileSize fileFS ["f"] = some (fileFS.metaSize 0) :=
  C9_size_consistency.2 fileFS
    (C9_size_consistency.1 none [FsOp.createFile ["f"] 0]) ["f"] 0 rfl

/-! ## WritableFileStreamSink
(`src/file-system-access-api/WritableFileStreamSink.ts`) -/

/-- A JS value arriving in a numeric command field: `undefined`, `null`,
`NaN`, or an integer. (`Number(undefined) = NaN`, `Number(null) = 0`.) -/
inductive JsNumArg where
  | undef
  | nullv
  | nanv
  | intv (i : Int)
deriving DecidableEq, Repr

/-- `prepareTruncateSize` / `prepareSeekPosition`: coerce with `Number`,
map `NaN` to 0, clamp negatives to 0 (`Math.max(0, n)`;
`Int.toNat` is exactly that clamp). -/
def prepareTruncateSize : JsNumArg → Nat
  | JsNumArg.undef => 0
  | JsNumArg.nullv => 0
  | JsNumArg.nanv => 0
  | JsNumArg.intv i => i.toNat

/-- `validateWriteCommand`'s missing-field test
(`=== undefined || === null`). -/
def JsNumArg.isMissing : JsNumArg → Bool
  | JsNumArg.undef => true
  | JsNumArg.nullv => true
  | _ => false

/-- A chunk passed to the sink's `write`: a bare byte payload, or one of the
three command shapes. A command's absent numeric property reads as
`undefined` (`JsNumArg.undef`), except a `write` command's `position`, where
JS distinguishes an absent property (`none`) from a present-but-`undefined`
one (`some JsNumArg.undef`). Blob and string payloads (UTF-8 encoded to
bytes) are covered by `bytes`. -/
inductive Chunk where
  | bytes (b : List Nat)
  | writeCmd (data : Option (List Nat)) (position : Option JsNumArg)
  | seekCmd (position : JsNumArg)
  | truncateCmd (size : JsNumArg)
deriving DecidableEq, Repr

/-- `convertToWriteParams`: bare payloads become a `write` command. -/
def convertToWriteParams : Chunk → Chunk
  | Chunk.bytes b => Chunk.writeCmd (some b) none
  | c => c

/-- The sink state: the underlying handle, the sink's own cursor and
tracked file size, the closed flag and the sticky error slot. -/
structure Sink where
  handle : Handle
  cursor : Nat
  fileSize : Nat
  isClosed : Bool
  error : Option JsErr
deriving Repr

/-- The sink constructor: cursor 0, `fileSize` from
`syncAccessHandle.getSize()`. -/
def mkSink (h : Handle) : Sink :=
  { handle := h, cursor := 0, fileSize := h.tempFile.length,
    isClosed := false, error := none }

def closedWriteMsg : String := "Cannot write to a CLOSED writable stream"

def closedCloseMsg : String := "Cannot close a CLOSED writable stream"

def erroredCloseMsg : String := "Cannot close a ERRORED writable stream"

/-- The `NotAllowedError` raised by `ensureHasWritePermission`. -/
def notAllowedErr : JsErr :=
  JsErr.domError
    "The request is not allowed by the user agent or the platform in the current context."
    "NotAllowedError"

/-- `throwInvalidParams(commandName, argName)`. -/
def invalidParamsErr (commandName argName : String) : JsErr :=
  JsErr.typeError
    ("Invalid params passed. " ++ commandName ++ " requires a " ++ argName
      ++ " argument")

/-- `WritableFileStreamSink.doTruncate`: truncate the handle, then pull the
cursor back and record the new tracked size. -/
def sinkDoTruncate (fs : FS) (s : Sink) (size : Nat) :
    Sink × Except JsErr Unit :=
  match Handle.truncate fs s.handle (size : Int) with
  | (h', Except.error e) => ({ s with handle := h' }, Except.error e)
  | (h', Except.ok _) =>
      ({ s with
          handle := h'
          cursor := if size < s.cursor then size else s.cursor
          fileSize := size }, Except.ok ())

/-- `WritableFileStreamSink.doWrite`: grow by an explicit truncate when the
write region extends past the tracked size, then write positionally and
advance the sink cursor. -/
def sinkDoWrite (fs : FS) (s : Sink) (data : List Nat) (position : Nat) :
    Sink × Except JsErr Unit :=
  match (if data.length + position > s.fileSize then
      sinkDoTruncate fs s (data.length + position)
    else (s, Except.ok ())) with
  | (s1, Except.error e) => (s1, Except.error e)
  | (s1, Except.ok _) =>
      match Handle.write fs s1.handle data (some (position : Int)) with
      | (h', Except.error e) => ({ s1 with handle := h' }, Except.error e)
      | (h', Except.ok k) =>
          ({ s1 with handle := h', cursor := position + k }, Except.ok ())

/-- The body of the sink's `try` block: convert, validate, dispatch. -/
def sinkProcess (fs : FS) (s : Sink) (chunk : Chunk) :
    Sink × Except JsErr Unit :=
  match convertToWriteParams chunk with
  | Chunk.writeCmd none _ =>
      (s, Except.error (invalidParamsErr "write" "data"))
  | Chunk.writeCmd (some b) pos =>
      sinkDoWrite fs s b
        (match pos with
          | none => s.cursor
          | some a => prepareTruncateSize a)
  | Chunk.seekCmd a =>
      if a.isMissing then
        (s, Except.error (invalidParamsErr "seek" "position"))
      else ({ s with cursor := prepareTruncateSize a }, Except.ok ())
  | Chunk.truncateCmd a =>
      if a.isMissing then
        (s, Except.error (invalidParamsErr "truncate" "size"))
      else sinkDoTruncate fs s (prepareTruncateSize a)
  | Chunk.bytes b => sinkDoWrite fs s b s.cursor

/-- `WritableFileStreamSink.write`: sticky-error check, closed check,
permission check (the current `"readwrite"` state for the file's path is
passed in, as the sink queries the PermissionsManager on every call), then
the command processing whose failures are remembered in the error slot. -/
def sinkWrite (fs : FS) (perm : PermState) (s : Sink) (chunk : Chunk) :
    Sink × Except JsErr Unit :=
  match s.error with
  | some e => (s, Except.error e)
  | none =>
      if s.isClosed then (s, Except.error (JsErr.typeError closedWriteMsg))
      else if perm ≠ PermState.granted then (s, Except.error notAllowedErr)
      else
        match sinkProcess fs s chunk with
        | (s1, Except.error e) =>
            ({ s1 with error := some e }, Except.error e)
        | (s1, Except.ok _) => (s1, Except.ok ())

/-- `WritableFileStreamSink.close`: closed check, permission check, then a
*fresh* `TypeError` when the sink is in the error state; otherwise mark
closed, flush and close the handle. -/
def sinkClose (fs : FS) (perm : PermState) (s : Sink) :
    (FS × Sink) × Except JsErr Unit :=
  if s.isClosed then
    ((fs, s), Except.error (JsErr.typeError closedCloseMsg))
  else if perm ≠ PermState.granted then ((fs, s), Except.error notAllowedErr)
  else
    match s.error with
    | some _ => ((fs, s), Except.error (JsErr.typeError erroredCloseMsg))
    | none =>
        match Handle.flush fs s.handle with
        | (fs', Except.error e) =>
            ((fs', { s with isClosed := true }), Except.error e)
        | (fs', Except.ok _) =>
            ((fs', { s with isClosed := true, handle := s.handle.close }),
              Except.ok ())

/-! ## Claim theorems: C6 -/

/-- A sink already in the error state re-throws the stored error verbatim
on any `write` call, with no state change, regardless of permission or
chunk. -/
theorem sinkWrite_sticky (fs : FS) (perm : PermState) (s : Sink)
    (chunk : Chunk) (e : JsErr) (herr : s.error = some e) :
    sinkWrite fs perm s chunk = (s, Except.error e) := by
  unfold sinkWrite
  rw [herr]

/-- Any error raised during the command-processing phase of a `write` call
is stored in the sink's error slot. -/
theorem sinkWrite_records (fs : FS) (s : Sink) (chunk : Chunk) (s' : Sink)
    (e : JsErr) (hnone : s.error = none) (hcl : s.isClosed = false)
    (heq : sinkWrite fs PermState.granted s chunk = (s', Except.error e)) :
    s'.error = some e := by
  unfold sinkWrite at heq
  rw [hnone] at heq
  dsimp only at heq
  rw [if_neg (by rw [hcl]; exact Bool.false_ne_true),
    if_neg (fun hc : PermState.granted ≠ PermState.granted => hc rfl)] at heq
  split at heq
  · next s1 e2 hproc =>
      injection heq with h1 h2
      injection h2 with h3
      rw [← h1, h3]
  · injection heq with _ h2
    exact Except.noConfusion h2

/-- `close` on an errored (not yet closed) sink with granted permission
throws a *fresh* `TypeError`, not the stored error, and changes nothing. -/
theorem sinkClose_errored (fs : FS) (s : Sink) (e : JsErr)
    (hcl : s.isClosed = false) (herr : s.error = some e) :
    sinkClose fs PermState.granted s =
      ((fs, s), Except.error (JsErr.typeError erroredCloseMsg)) := by
  unfold sinkClose
  rw [if_neg (by rw [hcl]; exact Bool.false_ne_true),
    if_neg (fun hc : PermState.granted ≠ PermState.granted => hc rfl), herr]

/-- **C6** (amended): an error raised during the command-processing phase of
a sink `write` call (past the error-state, closed and permission checks) is
remembered and re-thrown verbatim — the identical error value — on every
subsequent `write` call, with no state change; a subsequent `close` call,
however, fails with a *fresh* `TypeError("Cannot close a ERRORED writable
stream")` rather than the stored error, and errors thrown by the
permission check itself are not remembered. -/
theorem C6_sticky_sink_error :
    (∀ (fs : FS) (perm : PermState) (s : Sink) (chunk : Chunk) (e : JsErr),
        s.error = some e → sinkWrite fs perm s chunk = (s, Except.error e)) ∧
    (∀ (fs : FS) (s : Sink) (chunk : Chunk) (s' : Sink) (e : JsErr),
        s.error = none → s.isClosed = false →
        sinkWrite fs PermState.granted s chunk = (s', Except.error e) →
        s'.error = some e) ∧
    (∀ (fs : FS) (s : Sink) (e : JsErr), s.isClosed = false →
        s.error = some e →
        sinkClose fs PermState.granted s =
          ((fs, s), Except.error (JsErr.typeError erroredCloseMsg))) :=
  ⟨sinkWrite_sticky, sinkWrite_records, sinkClose_errored⟩

/-- The fresh sink over the empty-file handle. -/
def c6s0 : Sink := mkSink fileHandle

/-- The `TypeError` produced by `write({type: "seek"})` (missing
`position`). -/
def seekErr : JsErr := invalidParamsErr "seek" "position"

/-- The sink after that failing seek command. -/
def c6s1 : Sink :=
  (sinkWrite fileFS PermState.granted c6s0 (Chunk.seekCmd JsNumArg.undef)).1

/-- **C6** counterexample: after `write({type:"seek"})` stores its
`TypeError`, a subsequent `close` throws `TypeError("Cannot close a ERRORED
writable stream")` — a *different* error value — contradicting the claim
that the same error is re-thrown verbatim on every subsequent close call.
A `NotAllowedError` raised by the permission check during `write` is not
remembered at all. -/
theorem C6_counterexample :
    (sinkWrite fileFS PermState.granted c6s0
        (Chunk.seekCmd JsNumArg.undef)).2 = Except.error seekErr ∧
    c6s1.error = some seekErr ∧
    (sinkClose fileFS PermState.granted c6s1).2 =
      Except.error (JsErr.typeError erroredCloseMsg) ∧
    JsErr.typeError erroredCloseMsg ≠ seekErr ∧
    (sinkWrite fileFS PermState.prompt c6s0 (Chunk.bytes [1])).2 =
      Except.error notAllowedErr ∧
    (sinkWrite fileFS PermState.prompt c6s0 (Chunk.bytes [1])).1.error =
      none :=
  ⟨rfl, rfl, rfl, by decide, rfl, rfl⟩

/-- Witness for `C6_sticky_sink_error`: the errored fixture sink re-throws
its stored seek error on a later, well-formed write. -/
theorem C6_sticky_sink_error_witness :
    sinkWrite fileFS PermState.granted c6s1 (Chunk.bytes [1]) =
      (c6s1, Except.error seekErr) :=
  C6_sticky_sink_error.1 fileFS PermState.granted c6s1 (Chunk.bytes [1])
    seekErr rfl

/-! ## Claim theorems: C10 -/

/-- **C10**: the sink coerces the numeric arguments of `seek` and
`truncate` commands (and a `write` command's `position`) through `Number`,
mapping `NaN` (and `undefined`, were it to reach the coercion) to 0 and
clamping negatives to 0; consequently `write({type:"seek", position: -5})`
sets the cursor to 0 and succeeds, and `write({type:"truncate", size: -1})`
truncates to size 0 and succeeds — no type error — unlike the
`SyncAccessHandle`'s own `write`/`truncate`, which reject negative offsets
with a `TypeError`. -/
theorem C10_sink_coercion :
    prepareTruncateSize JsNumArg.nanv = 0 ∧
    prepareTruncateSize JsNumArg.nullv = 0 ∧
    (∀ i : Int, prepareTruncateSize (JsNumArg.intv i) = i.toNat) ∧
    (∀ i : Int, i < 0 → prepareTruncateSize (JsNumArg.intv i) = 0) ∧
    (∀ (fs : FS) (s : Sink), s.error = none → s.isClosed = false →
        sinkWrite fs PermState.granted s
            (Chunk.seekCmd (JsNumArg.intv (-5))) =
          ({ s with cursor := 0 }, Except.ok ())) ∧
    sinkWrite fileFS PermState.granted c6s0
        (Chunk.truncateCmd (JsNumArg.intv (-1))) =
      ({ c6s0 with fileSize := 0 }, Except.ok ()) ∧
    Handle.write fileFS fileHandle [1] (some (-5)) =
      (fileHandle,
        Except.error (JsErr.typeError "Negative writing offset is not supported")) ∧
    Handle.truncate fileFS fileHandle (-1) =
      (fileHandle,
        Except.error (JsErr.typeError "Negative file size is not supported")) := by
  refine ⟨rfl, rfl, fun i => rfl, ?_, ?_, rfl, rfl, rfl⟩
  · intro i hi
    simp only [prepareTruncateSize]
    omega
  · intro fs s h1 h2
    unfold sinkWrite
    rw [h1]
    dsimp only
    rw [if_neg (by rw [h2]; exact Bool.false_ne_true),
      if_neg (fun hc : PermState.granted ≠ PermState.granted => hc rfl)]
    show (({ s with cursor := 0 } : Sink), (Except.ok () : Except JsErr Unit)) = _
    rw [h1]

/-- Witness for `C10_sink_coercion`: the negative-seek conjunct applied to
the concrete fresh sink. -/
theorem C10_sink_coercion_witness :
    sinkWrite fileFS PermState.granted c6s0
        (Chunk.seekCmd (JsNumArg.intv (-5))) =
      ({ c6s0 with cursor := 0 }, Except.ok ()) :=
  C10_sink_coercion.2.2.2.2.1 fileFS c6s0 rfl rfl

/-! ## Permission hierarchy (`src/permissions/PermissionsManager.ts`)

The manager keeps one `Permission` per path, created lazily; every non-root
`Permission` is subscribed to its parent's `"read"` and `"readwrite"`
changes. Since the permission map's domain is closed under taking parents
and the subscriptions are exactly the parent→child edges, the map is
faithfully represented as a tree of `(read, readwrite)` nodes whose edges
carry the child's final path segment; notifying a mode's subscribers is
running the corresponding setter on each child subtree. -/

mutual
inductive PermTree where
  | node (read : PermState) (readwrite : PermState) (children : PermForest)
inductive PermForest where
  | nil
  | cons (name : String) (tree : PermTree) (rest : PermForest)
end

/-- Current `"read"` value of a Permission node. -/
def PermTree.readVal : PermTree → PermState
  | PermTree.node r _ _ => r

/-- Current `"readwrite"` value of a Permission node. -/
def PermTree.readwriteVal : PermTree → PermState
  | PermTree.node _ w _ => w

/-- The node's subscribed children. -/
def PermTree.children : PermTree → PermForest
  | PermTree.node _ _ cs => cs

/-- `Permission.get(mode)`. -/
def PermTree.getMode (t : PermTree) (m : Mode) : PermState :=
  match m with
  | Mode.read => t.readVal
  | Mode.readwrite => t.readwriteVal

/-!
A `Permission.setRead`/`setReadwrite` call delivers to each subscribed
child one of four notification sequences: nothing, `setRead s`,
`setReadwrite s`, or `setRead s` followed by `setReadwrite s` (the same
state both times — the cascades only ever re-broadcast the state being
set). Because the children's subtrees are disjoint, each child's final
state is the composition of its own sequence, so the recursion is phrased
per child with two Boolean flags ("received the read notification",
"received the readwrite notification"); `treeSetBoth` is the composition
`setReadwrite s ∘ setRead s`, whose closed form is proved equal to the
sequential composition in `treeSetBoth_eq` below.
-/

mutual
/-- `Permission.setRead`: assign `read` (notifying the read subscribers
when it changed); when the new state is not `"granted"`, cascade into
`setReadwrite` with the same state (assigning `readwrite` and notifying
its subscribers when it changed). -/
def treeSetRead : PermTree → PermState → PermTree
  | PermTree.node r w cs, s =>
      if s ≠ PermState.granted then
        PermTree.node s s
          (forestNotify cs (decide (r ≠ s)) (decide (w ≠ s)) s)
      else
        PermTree.node s w (forestNotify cs (decide (r ≠ s)) false s)
/-- `Permission.setReadwrite`: when the new state is `"granted"`, first run
`setRead "granted"` (assign and notify, no cascade back); then assign
`readwrite`, notifying its subscribers when it changed. -/
def treeSetReadwrite : PermTree → PermState → PermTree
  | PermTree.node r w cs, s =>
      if s = PermState.granted then
        PermTree.node PermState.granted s
          (forestNotify cs (decide (r ≠ PermState.granted))
            (decide (w ≠ s)) s)
      else
        PermTree.node r s (forestNotify cs false (decide (w ≠ s)) s)
/-- `setRead s` followed by `setReadwrite s` on the same Permission (the
sequence a child receives when both of its parent's modes changed). -/
def treeSetBoth : PermTree → PermState → PermTree
  | PermTree.node r w cs, s =>
      PermTree.node s s
        (forestNotify cs (decide (r ≠ s)) (decide (w ≠ s)) s)
/-- Deliver the flagged notification sequence to every child. -/
def forestNotify : PermForest → Bool → Bool → PermState → PermForest
  | PermForest.nil, _, _, _ => PermForest.nil
  | PermForest.cons n t rest, doRead, doRW, s =>
      PermForest.cons n
        (match doRead, doRW with
          | true, true => treeSetBoth t s
          | true, false => treeSetRead t s
          | false, true => treeSetReadwrite t s
          | false, false => t)
        (forestNotify rest doRead doRW s)
end

/-- `Permission.set(mode, state)` dispatch, on a node. -/
def treeSetMode (t : PermTree) (m : Mode) (s : PermState) : PermTree :=
  match m with
  | Mode.read => treeSetRead t s
  | Mode.readwrite => treeSetReadwrite t s

/-- Find a direct child by segment name. -/
def forestFind : PermForest → String → Option PermTree
  | PermForest.nil, _ => none
  | PermForest.cons n t rest, seg =>
      if seg = n then some t else forestFind rest seg

/-- Replace an existing child's subtree. -/
def forestReplace : PermForest → String → PermTree → PermForest
  | PermForest.nil, _, _ => PermForest.nil
  | PermForest.cons n t rest, seg, x =>
      if seg = n then PermForest.cons n x rest
      else PermForest.cons n t (forestReplace rest seg x)

/-- Append a freshly created child at the end (JS `push` on the parent's
subscriber list). -/
def forestAppend : PermForest → String → PermTree → PermForest
  | PermForest.nil, seg, x => PermForest.cons seg x PermForest.nil
  | PermForest.cons n t rest, seg, x =>
      PermForest.cons n t (forestAppend rest seg x)

/-- The value a freshly created Permission ends up with after
`findOrCreatePermission` overrides the provider's initial literal with the
parent's current values: `permission.setRead(parent.getRead())` followed by
`permission.setReadwrite(parent.getReadwrite())` on a subscriber-free
Permission. -/
def copyFromParent (init parent : PermVal) : PermVal :=
  setReadwriteVal (setReadVal init parent.read) parent.readwrite

/-- Build the chain of fresh Permissions created for the missing suffix of
a path: each link takes the provider's initial literal for its full path,
overridden from its (just created) parent's values. -/
def buildChain (provider : Path → PermVal) :
    PermVal → Path → String → List String → PermTree
  | parentVal, pre, seg, rest =>
      let v := copyFromParent (provider (pre ++ [seg])) parentVal
      PermTree.node v.read v.readwrite
        (match rest with
          | [] => PermForest.nil
          | seg2 :: rest2 =>
              PermForest.cons seg2 (buildChain provider v (pre ++ [seg]) seg2 rest2)
                PermForest.nil)

/-- `findOrCreatePermission(path)`: walk the existing tree; at the first
missing segment, create the remaining chain (seeded from the provider and
overridden by the parent's current values) and subscribe it (= attach it as
a child). -/
def insertPath (provider : Path → PermVal) :
    PermTree → Path → List String → PermTree
  | t, _, [] => t
  | PermTree.node r w cs, pre, seg :: rest =>
      match forestFind cs seg with
      | some child =>
          PermTree.node r w
            (forestReplace cs seg (insertPath provider child (pre ++ [seg]) rest))
      | none =>
          PermTree.node r w
            (forestAppend cs seg (buildChain provider ⟨r, w⟩ pre seg rest))

/-- The Permission node registered at a path, if any. -/
def treeLocate : PermTree → Path → Option PermTree
  | t, [] => some t
  | PermTree.node _ _ cs, seg :: rest =>
      match forestFind cs seg with
      | some c => treeLocate c rest
      | none => none

mutual
/-- Apply `Permission.set(mode, state)` to the Permission at a path (the
cascade then runs through its subscribed descendants). -/
def treeSetAt : PermTree → Path → Mode → PermState → PermTree
  | t, [], m, s => treeSetMode t m s
  | PermTree.node r w cs, seg :: rest, m, s =>
      PermTree.node r w (forestSetAt cs seg rest m s)
def forestSetAt : PermForest → String → Path → Mode → PermState → PermForest
  | PermForest.nil, _, _, _, _ => PermForest.nil
  | PermForest.cons n t rest', seg, rest, m, s =>
      if seg = n then PermForest.cons n (treeSetAt t rest m s) rest'
      else PermForest.cons n t (forestSetAt rest' seg rest m s)
end

/-- `findOrCreatePermission` from the manager's state (`none` = no
Permission created yet): create the root from the provider's literal when
missing, then walk/create down to the path. -/
def pmEnsure (provider : Path → PermVal) (pm : Option PermTree) (p : Path) :
    PermTree :=
  insertPath provider
    (match pm with
      | some t => t
      | none =>
          PermTree.node (provider []).read (provider []).readwrite
            PermForest.nil)
    [] p

/-- `PermissionsManager.getState(path, mode)`: path validation against the
file system, lazy creation, then the Permission's current value. (The
located node always exists after `pmEnsure`; the `prompt` fallback is
unreachable.) -/
def pmGetState (provider : Path → PermVal) (fs : FS) (pm : Option PermTree)
    (p : Path) (m : Mode) : Option PermTree × Except JsErr PermState :=
  if fs.pathExists p then
    (some (pmEnsure provider pm p),
      Except.ok
        (match treeLocate (pmEnsure provider pm p) p with
          | some n => n.getMode m
          | none => PermState.prompt))
  else (pm, Except.error (JsErr.typeError "Path does not exist in file system"))

/-- `PermissionsManager.setState(path, mode, state)`. -/
def pmSetState (provider : Path → PermVal) (fs : FS) (pm : Option PermTree)
    (p : Path) (m : Mode) (s : PermState) :
    Option PermTree × Except JsErr Unit :=
  if fs.pathExists p then
    (some (treeSetAt (pmEnsure provider pm p) p m s), Except.ok ())
  else (pm, Except.error (JsErr.typeError "Path does not exist in file system"))

/-- The file system of the C5 scenario: `"x/y"` exists (and so does its
parent `"x"`, created recursively). -/
def fs5 : FS := (FS.createFile (FS.init none) ["x", "y"] 0).1

/-- The notification a single child receives, as a function of the two
flags (read notification, readwrite notification). -/
def notifyTree (doRead doRW : Bool) (t : PermTree) (s : PermState) :
    PermTree :=
  match doRead, doRW with
  | true, true => treeSetBoth t s
  | true, false => treeSetRead t s
  | false, true => treeSetReadwrite t s
  | false, false => t

/-- Simultaneous induction over the permission tree and its forests. -/
theorem permTree_ind (Pt : PermTree → Prop) (Pf : PermForest → Prop)
    (hnode : ∀ r w cs, Pf cs → Pt (PermTree.node r w cs))
    (hnil : Pf PermForest.nil)
    (hcons : ∀ n t rest, Pt t → Pf rest → Pf (PermForest.cons n t rest)) :
    ∀ t, Pt t :=
  fun t => PermTree.rec hnode hnil hcons t

/-- Simultaneous induction, forest conclusion. -/
theorem permForest_ind (Pt : PermTree → Prop) (Pf : PermForest → Prop)
    (hnode : ∀ r w cs, Pf cs → Pt (PermTree.node r w cs))
    (hnil : Pf PermForest.nil)
    (hcons : ∀ n t rest, Pt t → Pf rest → Pf (PermForest.cons n t rest)) :
    ∀ f, Pf f :=
  fun f => PermForest.rec hnode hnil hcons f

theorem forestNotify_cons (n : String) (t : PermTree) (rest : PermForest)
    (dr drw : Bool) (s : PermState) :
    forestNotify (PermForest.cons n t rest) dr drw s =
      PermForest.cons n (notifyTree dr drw t s) (forestNotify rest dr drw s) := by
  cases dr <;> cases drw <;> rfl

theorem forestNotify_ff (f : PermForest) (s : PermState) :
    forestNotify f false false s = f := by
  refine permForest_ind (fun _ => True)
    (fun f => ∀ s, forestNotify f false false s = f) ?_ ?_ ?_ f s
  · exact fun _ _ _ _ => trivial
  · intro s
    rfl
  · intro n t rest _ ih s
    rw [forestNotify_cons, ih]
    rfl

theorem treeSetRead_readVal (t : PermTree) (s : PermState) :
    (treeSetRead t s).readVal = s := by
  cases t with
  | node r w cs =>
      unfold treeSetRead
      split <;> rfl

theorem treeSetReadwrite_readwriteVal (t : PermTree) (s : PermState) :
    (treeSetReadwrite t s).readwriteVal = s := by
  cases t with
  | node r w cs =>
      unfold treeSetReadwrite
      split <;> rfl

theorem treeSetBoth_readVal (t : PermTree) (s : PermState) :
    (treeSetBoth t s).readVal = s := by
  cases t with
  | node r w cs => rfl

theorem treeSetBoth_readwriteVal (t : PermTree) (s : PermState) :
    (treeSetBoth t s).readwriteVal = s := by
  cases t with
  | node r w cs => rfl

theorem notifyTree_read (drw : Bool) (t : PermTree) (s : PermState) :
    (notifyTree true drw t s).readVal = s := by
  cases drw
  · exact treeSetRead_readVal t s
  · exact treeSetBoth_readVal t s

theorem notifyTree_readwrite (dr : Bool) (t : PermTree) (s : PermState) :
    (notifyTree dr true t s).readwriteVal = s := by
  cases dr
  · exact treeSetReadwrite_readwriteVal t s
  · exact treeSetBoth_readwriteVal t s

/-- Validation of the flag-fused definition: `treeSetBoth` is exactly
`setRead s` followed by `setReadwrite s`. -/
theorem treeSetBoth_eq (t : PermTree) (s : PermState) :
    treeSetBoth t s = treeSetReadwrite (treeSetRead t s) s := by
  have hcomp : ∀ f : PermForest, ∀ (s : PermState) (dr drw : Bool),
      forestNotify (forestNotify f dr false s) false drw s =
        forestNotify f dr drw s := by
    refine permForest_ind
      (fun t => ∀ s, treeSetBoth t s = treeSetReadwrite (treeSetRead t s) s)
      (fun f => ∀ (s : PermState) (dr drw : Bool),
        forestNotify (forestNotify f dr false s) false drw s =
          forestNotify f dr drw s) ?_ ?_ ?_
    · intro r w cs ih s
      by_cases hs : s = PermState.granted
      · subst hs
        rw [show treeSetRead (PermTree.node r w cs) PermState.granted =
            PermTree.node PermState.granted w
              (forestNotify cs (decide (r ≠ PermState.granted)) false
                PermState.granted) from by
          unfold treeSetRead
          rw [if_neg (fun hc => hc rfl)]]
        rw [show ∀ X, treeSetReadwrite
            (PermTree.node PermState.granted w X) PermState.granted =
            PermTree.node PermState.granted PermState.granted
              (forestNotify X false (decide (w ≠ PermState.granted))
                PermState.granted) from fun X => rfl]
        rw [ih]
        rfl
      · have hs' : s ≠ PermState.granted := hs
        rw [show treeSetRead (PermTree.node r w cs) s =
            PermTree.node s s
              (forestNotify cs (decide (r ≠ s)) (decide (w ≠ s)) s) from by
          unfold treeSetRead
          rw [if_pos hs']]
        rw [show ∀ X, treeSetReadwrite (PermTree.node s s X) s =
            PermTree.node s s (forestNotify X false (decide (s ≠ s)) s)
            from fun X => by
          unfold treeSetReadwrite
          rw [if_neg hs]]
        rw [show decide (s ≠ s) = false from by simp]
        rw [forestNotify_ff]
        rfl
    · intro s dr drw
      rfl
    · intro n t rest iht ihr s dr drw
      rw [forestNotify_cons, forestNotify_cons, forestNotify_cons, ihr]
      cases dr <;> cases drw <;>
        simp only [notifyTree, iht s]
  have hnode : ∀ r w cs, (∀ (s : PermState) (dr drw : Bool),
      forestNotify (forestNotify cs dr false s) false drw s =
        forestNotify cs dr drw s) →
      ∀ s, treeSetBoth (PermTree.node r w cs) s =
        treeSetReadwrite (treeSetRead (PermTree.node r w cs) s) s := by
    intro r w cs ih s
    by_cases hs : s = PermState.granted
    · subst hs
      rw [show treeSetRead (PermTree.node r w cs) PermState.granted =
          PermTree.node PermState.granted w
            (forestNotify cs (decide (r ≠ PermState.granted)) false
              PermState.granted) from by
        unfold treeSetRead
        rw [if_neg (fun hc => hc rfl)]]
      rw [show ∀ X, treeSetReadwrite
          (PermTree.node PermState.granted w X) PermState.granted =
          PermTree.node PermState.granted PermState.granted
            (forestNotify X false (decide (w ≠ PermState.granted))
              PermState.granted) from fun X => rfl]
      rw [ih]
      rfl
    · have hs' : s ≠ PermState.granted := hs
      rw [show treeSetRead (PermTree.node r w cs) s =
          PermTree.node s s
            (forestNotify cs (decide (r ≠ s)) (decide (w ≠ s)) s) from by
        unfold treeSetRead
        rw [if_pos hs']]
      rw [show ∀ X, treeSetReadwrite (PermTree.node s s X) s =
          PermTree.node s s (forestNotify X false (decide (s ≠ s)) s)
          from fun X => by
        unfold treeSetReadwrite
        rw [if_neg hs]]
      rw [show decide (s ≠ s) = false from by simp]
      rw [forestNotify_ff]
      rfl
  cases t with
  | node r w cs => exact hnode r w cs (fun s => hcomp cs s) s

theorem treeLocate_cons_some (r w : PermState) (cs : PermForest)
    (seg : String) (rest : Path) (c : PermTree)
    (h : forestFind cs seg = some c) :
    treeLocate (PermTree.node r w cs) (seg :: rest) = treeLocate c rest := by
  show (match forestFind cs seg with
    | some c => treeLocate c rest
    | none => none) = treeLocate c rest
  rw [h]

theorem treeLocate_cons_none (r w : PermState) (cs : PermForest)
    (seg : String) (rest : Path)
    (h : forestFind cs seg = none) :
    treeLocate (PermTree.node r w cs) (seg :: rest) = none := by
  show (match forestFind cs seg with
    | some c => treeLocate c rest
    | none => none) = none
  rw [h]

/-- Looking a child up after a notification pass: the child is the notified
original child. -/
theorem forestFind_notify (dr drw : Bool) (s : PermState) (f : PermForest)
    (seg : String) :
    forestFind (forestNotify f dr drw s) seg =
      Option.map (fun c => notifyTree dr drw c s) (forestFind f seg) := by
  refine permForest_ind (fun _ => True)
    (fun f => ∀ seg, forestFind (forestNotify f dr drw s) seg =
      Option.map (fun c => notifyTree dr drw c s) (forestFind f seg))
    (fun _ _ _ _ => trivial) ?_ ?_ f seg
  · intro seg
    rfl
  · intro n t rest _ ih seg
    rw [forestNotify_cons]
    show (if seg = n then some (notifyTree dr drw t s)
      else forestFind (forestNotify rest dr drw s) seg) = _
    by_cases h : seg = n
    · rw [if_pos h,
        show forestFind (PermForest.cons n t rest) seg = some t from by
          unfold forestFind
          rw [if_pos h]]
      rfl
    · rw [if_neg h, ih seg,
        show forestFind (PermForest.cons n t rest) seg = forestFind rest seg
          from by
          show (if seg = n then some t else forestFind rest seg) =
            forestFind rest seg
          rw [if_neg h]]

/-- Looking the targeted child up after `forestSetAt` descended into it. -/
theorem forestFind_setAt (seg : String) (rest : Path) (m : Mode)
    (s : PermState) (f : PermForest) (tc : PermTree)
    (h : forestFind f seg = some tc) :
    forestFind (forestSetAt f seg rest m s) seg =
      some (treeSetAt tc rest m s) := by
  refine permForest_ind (fun _ => True)
    (fun f => ∀ tc, forestFind f seg = some tc →
      forestFind (forestSetAt f seg rest m s) seg =
        some (treeSetAt tc rest m s))
    (fun _ _ _ _ => trivial) ?_ ?_ f tc h
  · intro tc h
    exact Option.noConfusion h
  · intro n t rest' _ ih tc h
    by_cases hn : seg = n
    · rw [show forestFind (PermForest.cons n t rest') seg = some t from by
        unfold forestFind
        rw [if_pos hn]] at h
      injection h with h
      subst h
      unfold forestSetAt
      rw [if_pos hn]
      show (if seg = n then some (treeSetAt t rest m s)
        else forestFind rest' seg) = _
      rw [if_pos hn]
    · rw [show forestFind (PermForest.cons n t rest') seg =
        forestFind rest' seg from by
        show (if seg = n then some t else forestFind rest' seg) =
          forestFind rest' seg
        rw [if_neg hn]] at h
      unfold forestSetAt
      rw [if_neg hn]
      show (if seg = n then some t
        else forestFind (forestSetAt rest' seg rest m s) seg) = _
      rw [if_neg hn]
      exact ih tc h

/-- Looking a replaced child up finds the replacement. -/
theorem forestFind_replace (seg : String) (x : PermTree) (f : PermForest)
    (tc : PermTree) (h : forestFind f seg = some tc) :
    forestFind (forestReplace f seg x) seg = some x := by
  refine permForest_ind (fun _ => True)
    (fun f => forestFind f seg = some tc →
      forestFind (forestReplace f seg x) seg = some x)
    (fun _ _ _ _ => trivial) ?_ ?_ f h
  · intro h
    exact Option.noConfusion h
  · intro n t rest _ ih h
    by_cases hn : seg = n
    · unfold forestReplace
      rw [if_pos hn]
      show (if seg = n then some x else forestFind rest seg) = some x
      rw [if_pos hn]
    · rw [show forestFind (PermForest.cons n t rest) seg =
        forestFind rest seg from by
        show (if seg = n then some t else forestFind rest seg) =
          forestFind rest seg
        rw [if_neg hn]] at h
      unfold forestReplace
      rw [if_neg hn]
      show (if seg = n then some t
        else forestFind (forestReplace rest seg x) seg) = some x
      rw [if_neg hn]
      exact ih h

/-- Looking an appended child up (absent before) finds it. -/
theorem forestFind_append (seg : String) (x : PermTree) (f : PermForest)
    (h : forestFind f seg = none) :
    forestFind (forestAppend f seg x) seg = some x := by
  refine permForest_ind (fun _ => True)
    (fun f => forestFind f seg = none →
      forestFind (forestAppend f seg x) seg = some x)
    (fun _ _ _ _ => trivial) ?_ ?_ f h
  · intro _
    show (if seg = seg then some x else none) = some x
    rw [if_pos rfl]
  · intro n t rest _ ih h
    by_cases hn : seg = n
    · rw [show forestFind (PermForest.cons n t rest) seg = some t from by
        unfold forestFind
        rw [if_pos hn]] at h
      exact Option.noConfusion h
    · rw [show forestFind (PermForest.cons n t rest) seg =
        forestFind rest seg from by
        show (if seg = n then some t else forestFind rest seg) =
          forestFind rest seg
        rw [if_neg hn]] at h
      unfold forestAppend
      show (if seg = n then some t
        else forestFind (forestAppend rest seg x) seg) = some x
      rw [if_neg hn]
      exact ih h

/-- Under the coupling invariant the parent-override sequence reproduces the
parent's pair exactly, whatever the provider initially supplied. -/
theorem copyFromParent_eq (init : PermVal) (pr pw : PermState)
    (hc : pw = PermState.granted → pr = PermState.granted) :
    copyFromParent init ⟨pr, pw⟩ = ⟨pr, pw⟩ := by
  unfold copyFromParent setReadVal setReadwriteVal
  by_cases hw : pw = PermState.granted
  · have hr := hc hw
    subst hw
    subst hr
    simp
  · by_cases hr : pr = PermState.granted
    · subst hr
      simp [hw]
    · simp [hw, hr]

/-- Closed form of the parent-override sequence, with no assumption on the
parent: the provider's initial values are always discarded; the child gets
the parent's pair, except that a parent with `readwrite = granted` forces
the child's `read` to `granted` too (the `setReadwrite` cascade), whatever
the parent's own `read` is. -/
theorem copyFromParent_closed (init : PermVal) (pr pw : PermState) :
    copyFromParent init ⟨pr, pw⟩ =
      if pw = PermState.granted then
        ⟨PermState.granted, PermState.granted⟩
      else ⟨pr, pw⟩ := by
  unfold copyFromParent setReadVal setReadwriteVal
  by_cases hw : pw = PermState.granted
  · by_cases hr : pr = PermState.granted
    · subst hw
      subst hr
      simp
    · subst hw
      simp [hr]
  · by_cases hr : pr = PermState.granted
    · subst hr
      simp [hw]
    · simp [hw, hr]

theorem treeLocate_nil (t : PermTree) : treeLocate t [] = some t := by
  cases t with
  | node r w cs => rfl

theorem insertPath_cons_some (provider : Path → PermVal) (r w : PermState)
    (cs : PermForest) (pre : Path) (seg : String) (rest : List String)
    (c : PermTree) (h : forestFind cs seg = some c) :
    insertPath provider (PermTree.node r w cs) pre (seg :: rest) =
      PermTree.node r w
        (forestReplace cs seg (insertPath provider c (pre ++ [seg]) rest)) := by
  show (match forestFind cs seg with
    | some child =>
        PermTree.node r w
          (forestReplace cs seg
            (insertPath provider child (pre ++ [seg]) rest))
    | none =>
        PermTree.node r w
          (forestAppend cs seg (buildChain provider ⟨r, w⟩ pre seg rest))) = _
  rw [h]

/-- A `set(mode, state)` call that changes the node's value notifies every
subscribed child, which ends with that mode equal to the new state. -/
theorem treeSetMode_child (t : PermTree) (m : Mode) (s : PermState)
    (seg : String) (tc : PermTree)
    (hne : t.getMode m ≠ s) (hfind : forestFind t.children seg = some tc) :
    ∃ tc', forestFind (treeSetMode t m s).children seg = some tc' ∧
      tc'.getMode m = s := by
  cases t with
  | node r w cs =>
    have hfind' : forestFind cs seg = some tc := hfind
    cases m with
    | read =>
        have hr : decide (r ≠ s) = true := decide_eq_true hne
        show ∃ tc',
          forestFind (treeSetRead (PermTree.node r w cs) s).children seg =
            some tc' ∧ tc'.readVal = s
        unfold treeSetRead
        by_cases hs : s = PermState.granted
        · rw [if_neg (fun hc => hc hs)]
          refine ⟨notifyTree true false tc s, ?_, notifyTree_read false tc s⟩
          show forestFind (forestNotify cs (decide (r ≠ s)) false s) seg = _
          rw [hr, forestFind_notify, hfind']
          rfl
        · rw [if_pos hs]
          refine ⟨notifyTree true (decide (w ≠ s)) tc s, ?_,
            notifyTree_read (decide (w ≠ s)) tc s⟩
          show forestFind
            (forestNotify cs (decide (r ≠ s)) (decide (w ≠ s)) s) seg = _
          rw [hr, forestFind_notify, hfind']
          rfl
    | readwrite =>
        have hw : decide (w ≠ s) = true := decide_eq_true hne
        show ∃ tc',
          forestFind (treeSetReadwrite (PermTree.node r w cs) s).children seg =
            some tc' ∧ tc'.readwriteVal = s
        unfold treeSetReadwrite
        by_cases hs : s = PermState.granted
        · rw [if_pos hs]
          refine ⟨notifyTree (decide (r ≠ PermState.granted)) true tc s, ?_,
            notifyTree_readwrite (decide (r ≠ PermState.granted)) tc s⟩
          show forestFind
            (forestNotify cs (decide (r ≠ PermState.granted))
              (decide (w ≠ s)) s) seg = _
          rw [hw, forestFind_notify, hfind']
          rfl
        · rw [if_neg hs]
          refine ⟨notifyTree false true tc s, ?_,
            notifyTree_readwrite false tc s⟩
          show forestFind (forestNotify cs false (decide (w ≠ s)) s) seg = _
          rw [hw, forestFind_notify, hfind']
          rfl

/-- Seeding: creating the Permission for a fresh direct child of a path
whose Permission already exists discards the provider's initial values and
replays the parent's pair onto the child: the child's `readwrite` is the
parent's, and the child's `read` is the parent's unless the parent's
`readwrite` is `granted`, in which case the cascade forces the child's
`read` to `granted` as well. -/
theorem insertPath_fresh_child (provider : Path → PermVal) :
    ∀ (pp : List String) (t tp : PermTree) (pre : Path) (seg : String),
    treeLocate t pp = some tp →
    treeLocate t (pp ++ [seg]) = none →
    ∃ tc,
      treeLocate (insertPath provider t pre (pp ++ [seg])) (pp ++ [seg]) =
        some tc ∧
      tc.readVal = (if tp.readwriteVal = PermState.granted then
        PermState.granted else tp.readVal) ∧
      tc.readwriteVal = tp.readwriteVal := by
  intro pp
  induction pp with
  | nil =>
      intro t tp pre seg hloc habs
      cases t with
      | node r w cs =>
        injection hloc with hloc
        subst hloc
        have hfind : forestFind cs seg = none := by
          cases hf : forestFind cs seg with
          | none => rfl
          | some c =>
              rw [show ([] : List String) ++ [seg] = [seg] from rfl,
                treeLocate_cons_some r w cs seg [] c hf,
                treeLocate_nil c] at habs
              exact Option.noConfusion habs
        have hins : insertPath provider (PermTree.node r w cs) pre
            (([] : List String) ++ [seg]) =
            PermTree.node r w
              (forestAppend cs seg (buildChain provider ⟨r, w⟩ pre seg [])) := by
          show insertPath provider (PermTree.node r w cs) pre [seg] = _
          unfold insertPath
          rw [hfind]
        refine ⟨buildChain provider ⟨r, w⟩ pre seg [], ?_, ?_, ?_⟩
        · rw [hins]
          rw [show ([] : List String) ++ [seg] = [seg] from rfl,
            treeLocate_cons_some r w _ seg []
              (buildChain provider ⟨r, w⟩ pre seg [])
              (forestFind_append seg _ cs hfind)]
          exact treeLocate_nil _
        · show (copyFromParent (provider (pre ++ [seg])) ⟨r, w⟩).read =
            (if w = PermState.granted then PermState.granted else r)
          rw [copyFromParent_closed]
          by_cases hw : w = PermState.granted
          · rw [if_pos hw, if_pos hw]
          · rw [if_neg hw, if_neg hw]
        · show (copyFromParent (provider (pre ++ [seg])) ⟨r, w⟩).readwrite = w
          rw [copyFromParent_closed]
          by_cases hw : w = PermState.granted
          · rw [if_pos hw]
            exact hw.symm
          · rw [if_neg hw]
  | cons seg0 pp' ih =>
      intro t tp pre seg hloc habs
      cases t with
      | node r w cs =>
        cases hf : forestFind cs seg0 with
        | none =>
            rw [treeLocate_cons_none r w cs seg0 pp' hf] at hloc
            exact Option.noConfusion hloc
        | some c =>
            rw [treeLocate_cons_some r w cs seg0 pp' c hf] at hloc
            rw [show (seg0 :: pp') ++ [seg] = seg0 :: (pp' ++ [seg]) from rfl,
              treeLocate_cons_some r w cs seg0 (pp' ++ [seg]) c hf] at habs
            obtain ⟨tc, h1, h2, h3⟩ :=
              ih c tp (pre ++ [seg0]) seg hloc habs
            refine ⟨tc, ?_, h2, h3⟩
            have hins : insertPath provider (PermTree.node r w cs) pre
                ((seg0 :: pp') ++ [seg]) =
                PermTree.node r w
                  (forestReplace cs seg0
                    (insertPath provider c (pre ++ [seg0]) (pp' ++ [seg]))) :=
              insertPath_cons_some provider r w cs pre seg0 (pp' ++ [seg]) c hf
            rw [hins,
              show (seg0 :: pp') ++ [seg] = seg0 :: (pp' ++ [seg]) from rfl,
              treeLocate_cons_some r w _ seg0 (pp' ++ [seg])
                (insertPath provider c (pre ++ [seg0]) (pp' ++ [seg]))
                (forestFind_replace seg0 _ cs c hf)]
            exact h1

/-- Propagation: a later `setState` on an ancestor that changes the
ancestor's value for a mode reaches every subscribed child, whose value for
that mode becomes the new state. -/
theorem treeSetAt_child (m : Mode) (s : PermState) :
    ∀ (pp : List String) (t tp tc : PermTree) (seg : String),
    treeLocate t pp = some tp →
    forestFind tp.children seg = some tc →
    tp.getMode m ≠ s →
    ∃ tc', treeLocate (treeSetAt t pp m s) (pp ++ [seg]) = some tc' ∧
      tc'.getMode m = s := by
  intro pp
  induction pp with
  | nil =>
      intro t tp tc seg hloc hfind hne
      rw [treeLocate_nil] at hloc
      injection hloc with hloc
      subst hloc
      obtain ⟨tc', hf', hval⟩ := treeSetMode_child t m s seg tc hne hfind
      refine ⟨tc', ?_, hval⟩
      have hnil : treeSetAt t ([] : Path) m s = treeSetMode t m s := by
        cases t with
        | node r w cs => rfl
      rw [show ([] : List String) ++ [seg] = [seg] from rfl, hnil]
      cases hmode : treeSetMode t m s with
      | node r2 w2 cs2 =>
          rw [hmode] at hf'
          have hf2 : forestFind cs2 seg = some tc' := hf'
          rw [treeLocate_cons_some r2 w2 cs2 seg [] tc' hf2]
          exact treeLocate_nil tc'
  | cons seg0 pp' ih =>
      intro t tp tc seg hloc hfind hne
      cases t with
      | node r w cs =>
        cases hf : forestFind cs seg0 with
        | none =>
            rw [treeLocate_cons_none r w cs seg0 pp' hf] at hloc
            exact Option.noConfusion hloc
        | some c =>
            rw [treeLocate_cons_some r w cs seg0 pp' c hf] at hloc
            obtain ⟨tc', h1, h2⟩ := ih c tp tc seg hloc hfind hne
            refine ⟨tc', ?_, h2⟩
            have hset : treeSetAt (PermTree.node r w cs) (seg0 :: pp') m s =
                PermTree.node r w (forestSetAt cs seg0 pp' m s) := rfl
            rw [hset,
              show (seg0 :: pp') ++ [seg] = seg0 :: (pp' ++ [seg]) from rfl,
              treeLocate_cons_some r w _ seg0 (pp' ++ [seg])
                (treeSetAt c pp' m s) (forestFind_setAt seg0 pp' m s cs c hf)]
            exact h1

/-- Counterexample to C5 as stated: a freshly created Permission does not
always take its parent's current read value. The root Permission is built
verbatim from the provider's literal with no override, so an uncoupled
root such as `(read = prompt, readwrite = granted)` is reachable; seeding a
fresh child then replays `setRead(prompt)` followed by
`setReadwrite(granted)`, and the latter forces the child's read to
`granted` — the child ends `(granted, granted)`, not the parent's
`(prompt, granted)`. -/
theorem C5_counterexample :
    (PermTree.node PermState.prompt PermState.granted PermForest.nil).readVal =
      PermState.prompt ∧
    treeLocate
      (insertPath (fun _ => (⟨PermState.prompt, PermState.prompt⟩ : PermVal))
        (PermTree.node PermState.prompt PermState.granted PermForest.nil)
        [] ["a"]) ["a"] =
      some (PermTree.node PermState.granted PermState.granted
        PermForest.nil) :=
  ⟨rfl, rfl⟩

/-- C5, amended: Permission inheritance. (1) Seeding: when
`findOrCreatePermission` first creates a Permission for a fresh direct
child of a path whose Permission already exists, the provider's initial
values for the new path are discarded and the parent's pair is replayed
onto the child (`setRead(parent.read)` then `setReadwrite(parent.readwrite)`):
the child's readwrite equals the parent's, and the child's read equals the
parent's unless the parent's readwrite is `granted`, in which case the
cascade forces the child's read to `granted` as well — so the child equals
the parent's current pair exactly when the parent satisfies the coupling
`readwrite = granted → read = granted`, which holds for every Permission
whose values were set through the setters but can fail for a root taken
verbatim from the provider. (2) Propagation: a later `set(mode, state)` on
the parent that changes the parent's value for that mode reaches the
subscribed child, whose value for that mode becomes the new state.
(3) Concrete scenario: after `pm.setState("", "readwrite", "granted")`, a
first-time `pm.getState("x/y", "readwrite")` on the existing path `"x/y"`
returns `"granted"`, for every initial-state provider. -/
theorem C5_permission_inheritance :
    (∀ (provider : Path → PermVal) (pp : List String) (t tp : PermTree)
      (pre : Path) (seg : String),
      treeLocate t pp = some tp →
      treeLocate t (pp ++ [seg]) = none →
      ∃ tc,
        treeLocate (insertPath provider t pre (pp ++ [seg])) (pp ++ [seg]) =
          some tc ∧
        tc.readVal = (if tp.readwriteVal = PermState.granted then
          PermState.granted else tp.readVal) ∧
        tc.readwriteVal = tp.readwriteVal) ∧
    (∀ (m : Mode) (s : PermState) (pp : List String) (t tp tc : PermTree)
      (seg : String),
      treeLocate t pp = some tp →
      forestFind tp.children seg = some tc →
      tp.getMode m ≠ s →
      ∃ tc', treeLocate (treeSetAt t pp m s) (pp ++ [seg]) = some tc' ∧
        tc'.getMode m = s) ∧
    (∀ provider : Path → PermVal,
      (pmGetState provider fs5
        (pmSetState provider fs5 none [] Mode.readwrite
          PermState.granted).1
        ["x", "y"] Mode.readwrite).2 = Except.ok PermState.granted) :=
  ⟨fun provider => insertPath_fresh_child provider,
   fun m s => treeSetAt_child m s,
   fun _ => rfl⟩

theorem C5_permission_inheritance_witness :
    (∃ tc,
      treeLocate
        (insertPath (fun _ => (⟨PermState.prompt, PermState.prompt⟩ : PermVal))
          (PermTree.node PermState.prompt PermState.prompt PermForest.nil)
          [] (([] : List String) ++ ["a"])) (([] : List String) ++ ["a"]) =
        some tc ∧
      tc.readVal =
        (if (PermTree.node PermState.prompt PermState.prompt
            PermForest.nil).readwriteVal = PermState.granted then
          PermState.granted
        else
          (PermTree.node PermState.prompt PermState.prompt
            PermForest.nil).readVal) ∧
      tc.readwriteVal =
        (PermTree.node PermState.prompt PermState.prompt
          PermForest.nil).readwriteVal) ∧
    (∃ tc',
      treeLocate
        (treeSetAt
          (PermTree.node PermState.prompt PermState.prompt
            (PermForest.cons "a"
              (PermTree.node PermState.prompt PermState.prompt PermForest.nil)
              PermForest.nil))
          [] Mode.readwrite PermState.granted)
        (([] : List String) ++ ["a"]) = some tc' ∧
      tc'.getMode Mode.readwrite = PermState.granted) ∧
    (pmGetState (fun _ => (⟨PermState.prompt, PermState.prompt⟩ : PermVal))
      fs5
      (pmSetState (fun _ => (⟨PermState.prompt, PermState.prompt⟩ : PermVal))
        fs5 none [] Mode.readwrite PermState.granted).1
      ["x", "y"] Mode.readwrite).2 = Except.ok PermState.granted :=
  ⟨C5_permission_inheritance.1
      (fun _ => (⟨PermState.prompt, PermState.prompt⟩ : PermVal)) []
      (PermTree.node PermState.prompt PermState.prompt PermForest.nil)
      (PermTree.node PermState.prompt PermState.prompt PermForest.nil)
      [] "a" rfl rfl,
   C5_permission_inheritance.2.1 Mode.readwrite PermState.granted []
      (PermTree.node PermState.prompt PermState.prompt
        (PermForest.cons "a"
          (PermTree.node PermState.prompt PermState.prompt PermForest.nil)
          PermForest.nil))
      (PermTree.node PermState.prompt PermState.prompt
        (PermForest.cons "a"
          (PermTree.node PermState.prompt PermState.prompt PermForest.nil)
          PermForest.nil))
      (PermTree.node PermState.prompt PermState.prompt PermForest.nil)
      "a" rfl rfl (by decide),
   C5_permission_inheritance.2.2
      (fun _ => (⟨PermState.prompt, PermState.prompt⟩ : PermVal))⟩

end FsaMock
